import Mathlib

/-!
# `CLImage` (src/framework/cl/cl_image.h)

A shallow embedding of the class `paddle_mobile::framework::CLImage`: the staged
host buffer, the layout computation, the NCHW to RGBA-half packing loop and the
creation of the device image, followed by theorems about them.

Conventions of the embedding.

* `size_t` values are natural numbers below `2 ^ 64`; every `size_t` operation of
  the source is followed by `size_t`, the reduction modulo `2 ^ 64`.
* `int` loop counters start at `0` and count upwards, so they are natural
  numbers (signed overflow is undefined and is not modelled).
* A pointer to an owned array is `Option (List _)`: `none` is `nullptr`, `some l`
  is an array holding `l`.
* Memory that C++ leaves uninitialised (`new T[n]`, locals without initialiser)
  has its contents supplied from outside, as fields of `Runtime` or as an
  argument.
* `float`, `half_t` and `float2half` live in headers that are not part of the
  sources read here; the element types are parameters `F` and `Hf` and the
  conversion is a parameter `float2half : F → Hf`.
-/

set_option autoImplicit false

namespace paddle_mobile.framework

/-! ## Machine integers -/

/-- Reduction of a natural number to the range of `size_t` (64 bit). -/
def size_t (x : Nat) : Nat := x % 2 ^ 64

/-- Conversion of an `int64_t` to `size_t`, as in `size_t N = tensor_dims_[0]`. -/
def toSizeT (x : Int) : Nat := (x % 2 ^ 64).toNat

/-- Conversion to `int` (32 bit, two's complement), as in `int numel = product(dim)`. -/
def toInt (x : Int) : Int := (x + 2 ^ 31) % 2 ^ 32 - 2 ^ 31

/-- Conversion to `int64_t` (two's complement). -/
def toInt64 (x : Int) : Int := (x + 2 ^ 63) % 2 ^ 64 - 2 ^ 63

/-! ## `DDim` (framework/ddim.h, declarations only) -/

/-- Modelled from the spec: `DDim` (framework/ddim.h is not among the sources), the
"ordered sequence of dimension sizes" with "element count and indexed access".
The sizes are signed (`int64_t`), as the test `if (N < 0)` on a size read from a shape
presupposes. -/
abbrev DDim := List Int

/-- Modelled from the spec: `product(dim)` of framework/ddim.h, the element count,
"product of dimensions". -/
def product (dim : DDim) : Int := dim.foldl (fun acc d => acc * d) 1

/-- `dim.size()`: the rank. -/
def DDim.size (dim : DDim) : Nat := dim.length

/-- `dim[i]`: indexed access (only ever used below the rank). -/
def DDim.at (dim : DDim) (i : Nat) : Int := dim.getD i 0

/-- Modelled from the spec: `make_ddim({a, b})` of framework/ddim.h, the shape with
the listed sizes, each converted to `int64_t`. -/
def make_ddim (sizes : List Nat) : DDim := sizes.map (fun x => toInt64 (x : Int))

/-! ## Outcomes -/

/-- The four `PADDLE_MOBILE_THROW_EXCEPTION` sites of the class, named after their
messages. -/
inductive Exception where
  /-- " need call SetTensorData first" -/
  | need_call_SetTensorData_first
  /-- " empty image tensor data shouldn't have value" -/
  | empty_image_tensor_data_shouldnt_have_value
  /-- " cl image has initialized, tensor data has been deleted " -/
  | cl_image_has_initialized
  /-- " create image 2d error " -/
  | create_image_2d_error
  deriving DecidableEq, Repr

/-- Ways in which a call stops without returning and without one of the class's
own exceptions. -/
inductive Fault where
  /-- `assert(i2 < width * height * 4)` failed. -/
  | assertion_failed
  /-- `*p` read beyond the end of the source buffer. -/
  | read_past_end
  /-- `new float[numel]` with a negative `numel`. -/
  | bad_array_new_length
  deriving DecidableEq, Repr

/-- Result of a member function that mutates the object.
Modelled from the spec: `PADDLE_MOBILE_THROW_EXCEPTION` (common/enforce.h is not among
the sources) raises the error and abandons the call; the object keeps the
assignments made before the throw, which is the state carried by `thrown`. -/
inductive Outcome (σ : Type) where
  | ok (s : σ)
  | thrown (e : Exception) (s : σ)
  | fault (f : Fault)
  deriving DecidableEq, Repr

/-- `CL_SUCCESS` of CL/cl.h. -/
def CL_SUCCESS : Int := 0

/-- What a call takes from outside the object.
* `clCreateImage2D width height host_ptr` is the answer of the OpenCL runtime: the
  `cl_mem` handle it returns and the error code it stores in `err`;
* `new_half_t i` is the value found in cell `i` of a fresh `new half_t[...]`;
* `N`, `C`, `H`, `W` are the values found in the locals `size_t N, C, H, W` before
  anything is assigned to them. -/
structure Runtime (Hf : Type) where
  clCreateImage2D : Nat → Nat → Option (List Hf) → Nat × Int
  new_half_t : Nat → Hf
  N : Nat
  C : Nat
  H : Nat
  W : Nat

/-! ## The object -/

/-- The data members of `CLImage` (`context_` is never read or written and is left
out). `cl_mem` is a handle, a number. -/
structure CLImage (F : Type) where
  initialized_ : Bool
  cl_image_ : Nat
  image_width_ : Nat
  width_of_one_block_ : Nat
  height_of_one_block_ : Nat
  image_height_ : Nat
  c_block_ : Nat
  tensor_dims_ : DDim
  image_dims_ : DDim
  tensor_data_ : Option (List F)
  deriving DecidableEq, Repr

/-! ## Loops -/

/-- The loop `for (int i = 0; i < n; i++) body(i)` over a state `σ`; an iteration
that stops with an error ends the loop. -/
def forLoop {σ ε : Type} (body : Nat → σ → Except ε σ) : Nat → σ → Except ε σ
  | 0, s => .ok s
  | k + 1, s =>
    match forLoop body k s with
    | .ok s' => body k s'
    | .error e => .error e

/-! ## `SetTensorData` -/

/-- `memcpy(dst, src, n)` between `float` arrays, `n` counted in bytes and
`sizeof(float) = 4`: whole floats are copied while at least four bytes remain;
`mergeBytes k s d` (`k = 1, 2, 3`) is the float whose first `k` bytes are those of
`s` and whose other bytes are those of `d`. -/
def memcpy {F : Type} (mergeBytes : Nat → F → F → F) : List F → List F → Nat → List F
  | d :: ds, s :: ss, n =>
    if 4 ≤ n then s :: memcpy mergeBytes ds ss (n - 4)
    else if n = 0 then d :: ds
    else mergeBytes n s d :: ds
  | ds, _, _ => ds

/-- `void SetTensorData(float *tensorData, const DDim &dim)` (lines 34-42).
`new_float i` is the value found in cell `i` of the fresh `new float[numel]`; the
`delete[]` of the buffer held before leaves no trace in the object. -/
def CLImage.SetTensorData {F : Type} (mergeBytes : Nat → F → F → F) (new_float : Nat → F)
    (tensorData : List F) (dim : DDim) (s : CLImage F) : Outcome (CLImage F) :=
  let numel : Int := toInt (product dim)
  if numel < 0 then .fault .bad_array_new_length
  else
    let fresh := (List.range numel.toNat).map new_float
    .ok { s with
      tensor_data_ := some (memcpy mergeBytes fresh tensorData numel.toNat)
      tensor_dims_ := dim }

/-! ## The private `InitCLImage` -/

/-- Lines 121-134: `tensor_dims_ = dim`, and `tensor_data_` is the buffer passed in
or, for `nullptr`, a fresh buffer of `numel` zeros (`numel` an `int`). -/
def CLImage.stage {F : Type} [Zero F] (tensor_data : Option (List F)) (dim : DDim)
    (s : CLImage F) : CLImage F :=
  match tensor_data with
  | some buf => { s with tensor_dims_ := dim, tensor_data_ := some buf }
  | none =>
    let numel : Int := dim.foldl (fun acc d => toInt (acc * d)) 1
    { s with tensor_dims_ := dim, tensor_data_ := some (List.replicate numel.toNat 0) }

/-- The locals `size_t N, C, H, W`. -/
structure Extents where
  N : Nat
  C : Nat
  H : Nat
  W : Nat
  deriving DecidableEq, Repr

/-- Lines 135-156: the values of `N, C, H, W` for a shape. `N` is a `size_t`, so
the test `N < 0` compares natural numbers. For a rank other than 4 and 1 the
locals keep what they held. -/
def readExtents {Hf : Type} (rt : Runtime Hf) (tensor_dims_ : DDim) : Extents :=
  if tensor_dims_.size = 4 then
    let N := toSizeT (tensor_dims_.at 0)
    let N := if N < 0 then 1 else N
    { N := N, C := toSizeT (tensor_dims_.at 1), H := toSizeT (tensor_dims_.at 2),
      W := toSizeT (tensor_dims_.at 3) }
  else if tensor_dims_.size = 1 then
    { N := 1, C := toSizeT (tensor_dims_.at 0), H := 1, W := 1 }
  else
    { N := rt.N, C := rt.C, H := rt.H, W := rt.W }

/-- Line 158: `size_t width = W * ((C + 3) / 4)`. -/
def Extents.width (e : Extents) : Nat := size_t (e.W * (size_t (e.C + 3) / 4))

/-- Line 159: `size_t height = H * N`. -/
def Extents.height (e : Extents) : Nat := size_t (e.H * e.N)

/-- Lines 135-163: the members written by the layout computation.
`width_of_one_block_` and `height_of_one_block_` are assigned in the two rank
branches only. -/
def CLImage.layout {F Hf : Type} (rt : Runtime Hf) (s : CLImage F) : CLImage F :=
  let e := readExtents rt s.tensor_dims_
  let s1 :=
    if s.tensor_dims_.size = 4 ∨ s.tensor_dims_.size = 1 then
      { s with width_of_one_block_ := e.W, height_of_one_block_ := e.H }
    else s
  { s1 with
    image_width_ := e.width
    image_height_ := e.height
    image_dims_ := make_ddim [e.width, e.height] }

/-- The variables of the packing loop: the array `imageData`, the offset of the
pointer `p` from `tensor_data`, and the running indices `i0`, `i1`, `i2`. -/
structure PackState (Hf : Type) where
  imageData : List Hf
  p : Nat
  i0 : Nat
  i1 : Nat
  i2 : Nat
  deriving DecidableEq, Repr

/-- Lines 177-185, the body of the `w` loop: the assertion, the store
`imageData[i2] = float2half(*p)`, `i2 += 4` and `p++`. -/
def packW {F Hf : Type} (float2half : F → Hf) (tensor_data : List F) (width height : Nat)
    (st : PackState Hf) : Except Fault (PackState Hf) :=
  if size_t (size_t (width * height) * 4) ≤ st.i2 then .error .assertion_failed
  else
    match tensor_data[st.p]? with
    | none => .error .read_past_end
    | some x =>
      .ok { st with
        imageData := st.imageData.set st.i2 (float2half x)
        i2 := size_t (st.i2 + 4)
        p := st.p + 1 }

/-- Lines 175-189, the body of the `h` loop: `i2 = (i1 << 2) + c % 4`, the `w`
loop, `i1 += width`. -/
def packH {F Hf : Type} (float2half : F → Hf) (tensor_data : List F) (e : Extents)
    (c : Nat) (st : PackState Hf) : Except Fault (PackState Hf) :=
  let st1 := { st with i2 := size_t (size_t (st.i1 * 4) + c % 4) }
  match forLoop (fun _ => packW float2half tensor_data e.width e.height) e.W st1 with
  | .ok st2 => .ok { st2 with i1 := size_t (st2.i1 + e.width) }
  | .error f => .error f

/-- Lines 173-190, the body of the `c` loop: `i1 = i0` and the `h` loop. -/
def packC {F Hf : Type} (float2half : F → Hf) (tensor_data : List F) (e : Extents)
    (c : Nat) (st : PackState Hf) : Except Fault (PackState Hf) :=
  forLoop (fun _ => packH float2half tensor_data e c) e.H { st with i1 := st.i0 }

/-- Lines 172-192, the body of the `n` loop: the `c` loop and `i0 += width * H`. -/
def packN {F Hf : Type} (float2half : F → Hf) (tensor_data : List F) (e : Extents)
    (st : PackState Hf) : Except Fault (PackState Hf) :=
  match forLoop (fun c => packC float2half tensor_data e c) e.C st with
  | .ok st1 => .ok { st1 with i0 := size_t (st1.i0 + size_t (e.width * e.H)) }
  | .error f => .error f

/-- Lines 168-193: `imageData.reset(new half_t[width * height * 4])`, `p =
tensor_data`, `i0 = 0` and the four nested loops. -/
def packLoop {F Hf : Type} (float2half : F → Hf) (new_half_t : Nat → Hf)
    (tensor_data : List F) (e : Extents) : Except Fault (PackState Hf) :=
  forLoop (fun _ => packN float2half tensor_data e) e.N
    { imageData := (List.range (size_t (size_t (e.width * e.height) * 4))).map new_half_t
      p := 0, i0 := 0, i1 := 0, i2 := 0 }

/-- Lines 165-194: `imageData` stays null when `tensor_data` is null, otherwise it
is the array filled by the loops. -/
def pack {F Hf : Type} (float2half : F → Hf) (new_half_t : Nat → Hf)
    (tensor_data : Option (List F)) (e : Extents) : Except Fault (Option (List Hf)) :=
  match tensor_data with
  | none => .ok none
  | some src =>
    match packLoop float2half new_half_t src e with
    | .ok st => .ok (some st.imageData)
    | .error f => .error f

/-- `void InitCLImage(cl_context context, float *tensor_data, const DDim &dim)`
(private, lines 117-210). -/
def CLImage.InitCLImagePrivate {F Hf : Type} [Zero F] (float2half : F → Hf) (rt : Runtime Hf)
    (tensor_data : Option (List F)) (dim : DDim) (s : CLImage F) : Outcome (CLImage F) :=
  let s1 := (s.stage tensor_data dim).layout rt
  let e := readExtents rt dim
  match pack float2half rt.new_half_t tensor_data e with
  | .error f => .fault f
  | .ok imageData =>
    let r := rt.clCreateImage2D e.width e.height imageData
    let s2 := { s1 with cl_image_ := r.1 }
    if r.2 ≠ CL_SUCCESS then .thrown .create_image_2d_error s2 else .ok s2

/-! ## The public interface -/

/-- `void InitCLImage(cl_context context)` (lines 47-55). -/
def CLImage.InitCLImage {F Hf : Type} [Zero F] (float2half : F → Hf) (rt : Runtime Hf)
    (s : CLImage F) : Outcome (CLImage F) :=
  match s.tensor_data_ with
  | none => .thrown .need_call_SetTensorData_first s
  | some buf =>
    match s.InitCLImagePrivate float2half rt (some buf) s.tensor_dims_ with
    | .ok s1 => .ok { s1 with tensor_data_ := none, initialized_ := true }
    | .thrown e s1 => .thrown e s1
    | .fault f => .fault f

/-- `void InitEmptyImage(cl_context context, const DDim &dim)` (lines 57-64). -/
def CLImage.InitEmptyImage {F Hf : Type} [Zero F] (float2half : F → Hf) (rt : Runtime Hf)
    (dim : DDim) (s : CLImage F) : Outcome (CLImage F) :=
  match s.tensor_data_ with
  | some _ => .thrown .empty_image_tensor_data_shouldnt_have_value s
  | none =>
    match s.InitCLImagePrivate float2half rt none dim with
    | .ok s1 => .ok { s1 with initialized_ := true }
    | .thrown e s1 => .thrown e s1
    | .fault f => .fault f

/-- `cl_mem GetCLImage() const`. -/
def CLImage.GetCLImage {F : Type} (s : CLImage F) : Nat := s.cl_image_

/-- `const DDim &ImageDims()`. -/
def CLImage.ImageDims {F : Type} (s : CLImage F) : DDim := s.image_dims_

/-- `size_t ImageWidth() const`. -/
def CLImage.ImageWidth {F : Type} (s : CLImage F) : Nat := s.image_width_

/-- `size_t ImageHeight() const`. -/
def CLImage.ImageHeight {F : Type} (s : CLImage F) : Nat := s.image_height_

/-- `size_t CBlock() const`. -/
def CLImage.CBlock {F : Type} (s : CLImage F) : Nat := s.c_block_

/-- `size_t WidthOfOneBlock() const`. -/
def CLImage.WidthOfOneBlock {F : Type} (s : CLImage F) : Nat := s.width_of_one_block_

/-- `size_t HeightOfOneBlock() const`. -/
def CLImage.HeightOfOneBlock {F : Type} (s : CLImage F) : Nat := s.height_of_one_block_

/-- `CLImage &Resize(const DDim &dims)` (lines 92-95). -/
def CLImage.Resize {F : Type} (dims : DDim) (s : CLImage F) : CLImage F :=
  { s with tensor_dims_ := dims }

/-- `template <typename T> T *data() const` (lines 97-104): the pointer
`tensor_data_`, or the exception once `initialized_` is set. -/
def CLImage.data {F : Type} (s : CLImage F) : Except Exception (Option (List F)) :=
  if s.initialized_ then .error .cl_image_has_initialized else .ok s.tensor_data_

/-- `int64_t numel() const` (line 109). -/
def CLImage.numel {F : Type} (s : CLImage F) : Int := product s.tensor_dims_

/-- `const DDim &dims() const` (line 114). -/
def CLImage.dims {F : Type} (s : CLImage F) : DDim := s.tensor_dims_

/-! ## Stores of the packing loop, as a list -/

/-- The lists `body 0`, ..., `body (n - 1)` one after the other: what a loop of `n`
iterations appends when iteration `i` appends `body i`. -/
def concatLoop {α : Type} (body : Nat → List α) : Nat → List α
  | 0 => []
  | k + 1 => concatLoop body k ++ body k

/-- The array after a sequence of stores: the pair `(i, q)` stands for
`imageData[i] = float2half(tensor_data[q])`, carried out from left to right. -/
def applyWrites {F Hf : Type} (float2half : F → Hf) (src : List F) (img : List Hf)
    (ws : List (Nat × Nat)) : List Hf :=
  ws.foldl (fun im w =>
    match src[w.2]? with
    | some x => im.set w.1 (float2half x)
    | none => im) img

/-- Stores of one run of the `w` loop entered with `i2 = b` and `p` at offset `q`. -/
def wTrace (b q W : Nat) : List (Nat × Nat) := concatLoop (fun k => [(b + 4 * k, q + k)]) W

/-- Stores of one run of the `h` loop for channel `c`, entered with `i1 = a` and `p`
at offset `q`. -/
def hTrace (a q wd c W H : Nat) : List (Nat × Nat) :=
  concatLoop (fun h => wTrace (4 * (a + h * wd) + c % 4) (q + h * W) W) H

/-- Stores of one run of the `c` loop, entered with `i0 = z` and `p` at offset `q`. -/
def cTrace (z q wd W H C : Nat) : List (Nat × Nat) :=
  concatLoop (fun c => hTrace z (q + c * (H * W)) wd c W H) C

/-- Stores of the whole loop nest, in the order in which they happen. -/
def nTrace (wd W H C N : Nat) : List (Nat × Nat) :=
  concatLoop (fun n => cTrace (n * (wd * H)) (n * (C * (H * W))) wd W H C) N

/-! ## Concrete inputs of the examples

In the examples `float` and `half_t` values are natural numbers and `float2half` is
the identity, so that every value can be followed through the code. -/

/-- A runtime whose device creates every image (handle `1`, `CL_SUCCESS`) and whose
fresh `half_t` arrays hold `777` in every cell. -/
def rtAccept : Runtime Nat :=
  { clCreateImage2D := fun _ _ _ => (1, 0), new_half_t := fun _ => 777,
    N := 0, C := 0, H := 0, W := 0 }

/-- A runtime whose device refuses every image (null handle, error code `-5`). -/
def rtRefuse : Runtime Nat :=
  { clCreateImage2D := fun _ _ _ => (0, -5), new_half_t := fun _ => 777,
    N := 0, C := 0, H := 0, W := 0 }

/-- An object without staged buffer, not initialised, every other member zero. -/
def emptyImage : CLImage Nat :=
  { initialized_ := false, cl_image_ := 0, image_width_ := 0, width_of_one_block_ := 0,
    height_of_one_block_ := 0, image_height_ := 0, c_block_ := 0, tensor_dims_ := [],
    image_dims_ := [], tensor_data_ := none }

/-- An object holding the staged buffer `buf` for the shape `dim`. -/
def stagedImage (dim : DDim) (buf : List Nat) : CLImage Nat :=
  { emptyImage with tensor_dims_ := dim, tensor_data_ := some buf }

/-- The object after `(1, 5, 2, 3)` was staged and materialised on `rtAccept`. -/
def materialized1523 : CLImage Nat :=
  { initialized_ := true, cl_image_ := 1, image_width_ := 6, width_of_one_block_ := 3,
    height_of_one_block_ := 2, image_height_ := 2, c_block_ := 0,
    tensor_dims_ := [1, 5, 2, 3], image_dims_ := [6, 2], tensor_data_ := none }

/-- The array the packing loop leaves for the shape `(1, 5, 2, 3)`, the source
`0, 1, ..., 29` and fresh cells holding `777`: two rows of six pixels of four lanes. -/
def packed1523 : List Nat :=
  [24, 6, 12, 18, 25, 7, 13, 19, 26, 8, 14, 20,
   777, 777, 777, 777, 777, 777, 777, 777, 777, 777, 777, 777,
   27, 9, 15, 21, 28, 10, 16, 22, 29, 11, 17, 23,
   777, 777, 777, 777, 777, 777, 777, 777, 777, 777, 777, 777]

/-- The object after `(1, 5, 2, 3)` was staged and the device refused the image. -/
def refused1523 : CLImage Nat :=
  { initialized_ := false, cl_image_ := 0, image_width_ := 6, width_of_one_block_ := 3,
    height_of_one_block_ := 2, image_height_ := 2, c_block_ := 0,
    tensor_dims_ := [1, 5, 2, 3], image_dims_ := [6, 2],
    tensor_data_ := some (List.range 30) }

/-- The object after `(0, 1, 1, 1)` was staged with an empty buffer and materialised on
`rtAccept`. -/
def materialized0111 : CLImage Nat :=
  { initialized_ := true, cl_image_ := 1, image_width_ := 1, width_of_one_block_ := 1,
    height_of_one_block_ := 1, image_height_ := 0, c_block_ := 0,
    tensor_dims_ := [0, 1, 1, 1], image_dims_ := [1, 0], tensor_data_ := none }

/-- The object after the rank-1 shape `(5)` was staged and materialised on `rtAccept`. -/
def materialized5 : CLImage Nat :=
  { initialized_ := true, cl_image_ := 1, image_width_ := 2, width_of_one_block_ := 1,
    height_of_one_block_ := 1, image_height_ := 1, c_block_ := 0,
    tensor_dims_ := [5], image_dims_ := [2, 1], tensor_data_ := none }

/-- The object after `(0, 1, 1, 1)` was staged with an empty buffer and the device
refused the image. -/
def refused0111 : CLImage Nat :=
  { initialized_ := false, cl_image_ := 0, image_width_ := 1, width_of_one_block_ := 1,
    height_of_one_block_ := 1, image_height_ := 0, c_block_ := 0,
    tensor_dims_ := [0, 1, 1, 1], image_dims_ := [1, 0], tensor_data_ := some [] }

/-! ## The packing loop, iteration by iteration -/

/-- The variables of the packing loop at the start of iteration `(n, c, h, w)`, before its
assertion and store: the state after `n` whole iterations of the `n` loop, then `c` whole
iterations of the `c` loop, `i1 = i0`, `h` whole iterations of the `h` loop,
`i2 = (i1 << 2) + c % 4` and `w` whole iterations of the `w` loop. -/
def packStateAt {F Hf : Type} (float2half : F → Hf) (new_half_t : Nat → Hf)
    (tensor_data : List F) (e : Extents) (n c h w : Nat) : Except Fault (PackState Hf) :=
  match forLoop (fun _ => packN float2half tensor_data e) n
      { imageData := (List.range (size_t (size_t (e.width * e.height) * 4))).map new_half_t
        p := 0, i0 := 0, i1 := 0, i2 := 0 } with
  | .error f => .error f
  | .ok sn =>
    match forLoop (fun c' => packC float2half tensor_data e c') c sn with
    | .error f => .error f
    | .ok sc =>
      match forLoop (fun _ => packH float2half tensor_data e c) h { sc with i1 := sc.i0 } with
      | .error f => .error f
      | .ok sh =>
        forLoop (fun _ => packW float2half tensor_data e.width e.height) w
          { sh with i2 := size_t (size_t (sh.i1 * 4) + c % 4) }

/-! ## Fresh objects and sequences of calls -/

/-- An object as `new CLImage()` creates it: `initialized_` is false by its initialiser and
`tensor_data_` is null (value-initialisation zeroes the members that have no initialiser,
and the null tests on `tensor_data_` in `SetTensorData`, `InitCLImage` and
`InitEmptyImage` rely on it). The other members are left open. -/
def CLImage.IsFresh {F : Type} (s : CLImage F) : Prop :=
  s.initialized_ = false ∧ s.tensor_data_ = none

/-- The states an object passes through, starting fresh, under `SetTensorData` called
while the object is not initialised, `InitCLImage(context)` and `Resize`, in any order.
A call that throws leaves the object in the state carried by `thrown`. -/
inductive ReachableByStaging {F Hf : Type} [Zero F] (float2half : F → Hf) :
    CLImage F → Prop where
  | fresh (s : CLImage F) : s.IsFresh → ReachableByStaging float2half s
  | setTensorData (s s' : CLImage F) (mergeBytes : Nat → F → F → F) (new_float : Nat → F)
      (tensorData : List F) (dim : DDim) :
      ReachableByStaging float2half s → s.initialized_ = false →
      s.SetTensorData mergeBytes new_float tensorData dim = .ok s' →
      ReachableByStaging float2half s'
  | initCLImage (s s' : CLImage F) (rt : Runtime Hf) :
      ReachableByStaging float2half s → s.InitCLImage float2half rt = .ok s' →
      ReachableByStaging float2half s'
  | initCLImageThrown (s s' : CLImage F) (rt : Runtime Hf) (e : Exception) :
      ReachableByStaging float2half s → s.InitCLImage float2half rt = .thrown e s' →
      ReachableByStaging float2half s'
  | resize (s : CLImage F) (d : DDim) :
      ReachableByStaging float2half s → ReachableByStaging float2half (s.Resize d)

/-- The states an object passes through, starting fresh, under `SetTensorData`,
`InitCLImage(context)` and `InitEmptyImage` with shapes whose element count is a
non-negative `int`, and `Resize` called while no buffer is held, in any order. -/
inductive ReachableWithoutReshaping {F Hf : Type} [Zero F] (float2half : F → Hf) :
    CLImage F → Prop where
  | fresh (s : CLImage F) : s.IsFresh → ReachableWithoutReshaping float2half s
  | setTensorData (s s' : CLImage F) (mergeBytes : Nat → F → F → F) (new_float : Nat → F)
      (tensorData : List F) (dim : DDim) :
      ReachableWithoutReshaping float2half s → 0 ≤ product dim → product dim < 2 ^ 31 →
      s.SetTensorData mergeBytes new_float tensorData dim = .ok s' →
      ReachableWithoutReshaping float2half s'
  | initCLImage (s s' : CLImage F) (rt : Runtime Hf) :
      ReachableWithoutReshaping float2half s → s.InitCLImage float2half rt = .ok s' →
      ReachableWithoutReshaping float2half s'
  | initCLImageThrown (s s' : CLImage F) (rt : Runtime Hf) (e : Exception) :
      ReachableWithoutReshaping float2half s → s.InitCLImage float2half rt = .thrown e s' →
      ReachableWithoutReshaping float2half s'
  | initEmptyImage (s s' : CLImage F) (rt : Runtime Hf) (dim : DDim) :
      ReachableWithoutReshaping float2half s → 0 ≤ product dim → product dim < 2 ^ 31 →
      s.InitEmptyImage float2half rt dim = .ok s' →
      ReachableWithoutReshaping float2half s'
  | initEmptyImageThrown (s s' : CLImage F) (rt : Runtime Hf) (dim : DDim) (e : Exception) :
      ReachableWithoutReshaping float2half s → 0 ≤ product dim → product dim < 2 ^ 31 →
      s.InitEmptyImage float2half rt dim = .thrown e s' →
      ReachableWithoutReshaping float2half s'
  | resize (s : CLImage F) (d : DDim) :
      ReachableWithoutReshaping float2half s → s.tensor_data_ = none →
      ReachableWithoutReshaping float2half (s.Resize d)

/-! ## Further concrete inputs -/

/-- A runtime that accepts every image and whose uninitialised locals `N, C, H, W` all
hold `1`. -/
def rtLocalsOne : Runtime Nat :=
  { clCreateImage2D := fun _ _ _ => (1, 0), new_half_t := fun _ => 777,
    N := 1, C := 1, H := 1, W := 1 }

/-- A runtime whose device follows the OpenCL rule for `CL_MEM_COPY_HOST_PTR`: a null
`host_ptr` is refused with `CL_INVALID_HOST_PTR` (`-37`), every buffer is accepted. -/
def rtConforming : Runtime Nat :=
  { clCreateImage2D := fun _ _ host_ptr =>
      match host_ptr with
      | none => (0, -37)
      | some _ => (1, 0),
    new_half_t := fun _ => 777, N := 0, C := 0, H := 0, W := 0 }

/-- The object after the rank-2 shape `(2, 3)` was staged and materialised on
`rtLocalsOne`. -/
def materialized23 : CLImage Nat :=
  { initialized_ := true, cl_image_ := 1, image_width_ := 1, width_of_one_block_ := 0,
    height_of_one_block_ := 0, image_height_ := 1, c_block_ := 0,
    tensor_dims_ := [2, 3], image_dims_ := [1, 1], tensor_data_ := none }

/-- The object after `InitEmptyImage(context, (1, 5, 2, 3))` on `emptyImage` when the
device accepts the image. -/
def emptyMaterialized1523 : CLImage Nat :=
  { initialized_ := true, cl_image_ := 1, image_width_ := 6, width_of_one_block_ := 3,
    height_of_one_block_ := 2, image_height_ := 2, c_block_ := 0,
    tensor_dims_ := [1, 5, 2, 3], image_dims_ := [6, 2],
    tensor_data_ := some (List.replicate 30 0) }

/-- The object after `InitEmptyImage(context, (1, 5, 2, 3))` on `emptyImage` when the
device refuses the image. -/
def emptyRefused1523 : CLImage Nat :=
  { initialized_ := false, cl_image_ := 0, image_width_ := 6, width_of_one_block_ := 3,
    height_of_one_block_ := 2, image_height_ := 2, c_block_ := 0,
    tensor_dims_ := [1, 5, 2, 3], image_dims_ := [6, 2],
    tensor_data_ := some (List.replicate 30 0) }

/-- The object after `(4)` was staged and materialised on `rtAccept`. -/
def materialized4 : CLImage Nat :=
  { initialized_ := true, cl_image_ := 1, image_width_ := 1, width_of_one_block_ := 1,
    height_of_one_block_ := 1, image_height_ := 1, c_block_ := 0,
    tensor_dims_ := [4], image_dims_ := [1, 1], tensor_data_ := none }

/-! ## Loop lemmas -/

theorem mem_concatLoop {α : Type} (body : Nat → List α) (n : Nat) (x : α) :
    x ∈ concatLoop body n ↔ ∃ i, i < n ∧ x ∈ body i := by
  induction n with
  | zero => simp [concatLoop]
  | succ k ih =>
    simp only [concatLoop, List.mem_append, ih]
    constructor
    · rintro (⟨i, hi, hx⟩ | hx)
      · exact ⟨i, by omega, hx⟩
      · exact ⟨k, by omega, hx⟩
    · rintro ⟨i, hi, hx⟩
      by_cases h : i = k
      · subst h; exact Or.inr hx
      · exact Or.inl ⟨i, by omega, hx⟩

/-- Stores in sequence: the stores of `a`, then those of `b`. -/
theorem applyWrites_append {F Hf : Type} (f : F → Hf) (src : List F) (img : List Hf)
    (a b : List (Nat × Nat)) :
    applyWrites f src img (a ++ b) = applyWrites f src (applyWrites f src img a) b := by
  simp [applyWrites, List.foldl_append]

/-- Stores do not change the length of the array. -/
theorem applyWrites_length {F Hf : Type} (f : F → Hf) (src : List F) (ws : List (Nat × Nat)) :
    ∀ img : List Hf, (applyWrites f src img ws).length = img.length := by
  induction ws with
  | nil => intro img; rfl
  | cons w ws ih =>
    intro img
    simp only [applyWrites, List.foldl_cons]
    have := ih (match src[w.2]? with
      | some x => img.set w.1 (f x)
      | none => img)
    simp only [applyWrites] at this
    rw [this]
    cases src[w.2]? <;> simp

/-- A cell that no store of the list addresses keeps its value. -/
theorem applyWrites_getElem?_of_not_mem {F Hf : Type} (f : F → Hf) (src : List F)
    (ws : List (Nat × Nat)) (j : Nat) (hj : ∀ w ∈ ws, w.1 ≠ j) :
    ∀ img : List Hf, (applyWrites f src img ws)[j]? = img[j]? := by
  induction ws with
  | nil => intro img; rfl
  | cons w ws ih =>
    intro img
    simp only [applyWrites, List.foldl_cons]
    have h1 := ih (fun w' hw' => hj w' (List.mem_cons_of_mem _ hw'))
      (match src[w.2]? with
      | some x => img.set w.1 (f x)
      | none => img)
    simp only [applyWrites] at h1
    rw [h1]
    have h2 : w.1 ≠ j := hj w (List.mem_cons_self _ _)
    cases src[w.2]? with
    | none => rfl
    | some x => simp [List.getElem?_set_ne h2]

/-- Invariant rule for `forLoop`: an invariant that holds at entry and that every
iteration re-establishes without stopping holds when the loop ends, and the loop ends. -/
theorem forLoop_inv {σ ε : Type} (body : Nat → σ → Except ε σ) (Inv : Nat → σ → Prop)
    (n : Nat) (s : σ) (h0 : Inv 0 s)
    (hstep : ∀ k, k < n → ∀ st, Inv k st → ∃ st', body k st = .ok st' ∧ Inv (k + 1) st') :
    ∃ st', forLoop body n s = .ok st' ∧ Inv n st' := by
  induction n with
  | zero => exact ⟨s, rfl, h0⟩
  | succ k ih =>
    obtain ⟨st, hst, hinv⟩ := ih (fun j hj => hstep j (by omega))
    obtain ⟨st', hst', hinv'⟩ := hstep k (by omega) st hinv
    exact ⟨st', by simp [forLoop, hst, hst'], hinv'⟩

/-- The `w` loop, when every index it reaches passes the check and the source holds
`W` more floats: it ends, and has carried out the stores of `wTrace`. -/
theorem packW_loop {F Hf : Type} (f : F → Hf) (src : List F) (wd ht W : Nat)
    (st : PackState Hf)
    (hB : ∀ k, k < W → st.i2 + 4 * k < size_t (size_t (wd * ht) * 4))
    (h64 : st.i2 + 4 * W < 2 ^ 64) (hsrc : st.p + W ≤ src.length) :
    ∃ st', forLoop (fun _ => packW f src wd ht) W st = .ok st' ∧
      st'.imageData = applyWrites f src st.imageData (wTrace st.i2 st.p W) ∧
      st'.p = st.p + W ∧ st'.i0 = st.i0 ∧ st'.i1 = st.i1 := by
  have key := forLoop_inv (fun _ => packW f src wd ht)
    (fun k s => s.imageData = applyWrites f src st.imageData (wTrace st.i2 st.p k) ∧
      s.p = st.p + k ∧ s.i2 = st.i2 + 4 * k ∧ s.i0 = st.i0 ∧ s.i1 = st.i1)
    W st ⟨rfl, rfl, rfl, rfl, rfl⟩ ?_
  · obtain ⟨st', h1, h2, h3, _, h5, h6⟩ := key
    exact ⟨st', h1, h2, h3, h5, h6⟩
  · intro k hk s ⟨hi, hp, hi2, hi0, hi1⟩
    have hlt : st.p + k < src.length := by omega
    have hb := hB k hk
    have hget : src[s.p]? = some (src[st.p + k]) := by
      rw [hp]; exact List.getElem?_eq_getElem hlt
    refine ⟨{ s with
      imageData := s.imageData.set s.i2 (f (src[st.p + k]))
      i2 := size_t (s.i2 + 4)
      p := s.p + 1 }, ?_, ?_⟩
    · show packW f src wd ht s = _
      unfold packW
      rw [if_neg (by omega), hget]
    · refine ⟨?_, ?_, ?_, hi0, hi1⟩
      · show List.set _ _ _ = _
        simp only [wTrace, concatLoop]
        rw [applyWrites_append, ← wTrace, ← hi]
        simp [applyWrites, hi2, List.getElem?_eq_getElem hlt]
      · show s.p + 1 = _
        omega
      · show size_t (s.i2 + 4) = _
        simp only [size_t, hi2]; omega

/-- The `h` loop for one channel, when the rows it visits lie inside the array. -/
theorem packH_loop {F Hf : Type} (f : F → Hf) (src : List F) (e : Extents) (c X : Nat)
    (st : PackState Hf)
    (hB : size_t (size_t (e.width * e.height) * 4) = 4 * X) (hX : 4 * X < 2 ^ 64)
    (hW : e.W ≤ e.width) (hrow : st.i1 + e.H * e.width ≤ X)
    (hsrc : st.p + e.H * e.W ≤ src.length) :
    ∃ st', forLoop (fun _ => packH f src e c) e.H st = .ok st' ∧
      st'.imageData = applyWrites f src st.imageData (hTrace st.i1 st.p e.width c e.W e.H) ∧
      st'.p = st.p + e.H * e.W ∧ st'.i0 = st.i0 := by
  have key := forLoop_inv (fun _ => packH f src e c)
    (fun h s => s.imageData = applyWrites f src st.imageData (hTrace st.i1 st.p e.width c e.W h) ∧
      s.p = st.p + h * e.W ∧ s.i1 = st.i1 + h * e.width ∧ s.i0 = st.i0)
    e.H st ⟨rfl, by simp, by simp, rfl⟩ ?_
  · obtain ⟨st', h1, h2, h3, _, h5⟩ := key
    exact ⟨st', h1, h2, by rw [h3, Nat.mul_comm], h5⟩
  · intro h hh s ⟨hi, hp, hi1, hi0⟩
    have e1 : (h + 1) * e.width = h * e.width + e.width := by ring
    have e2 : (h + 1) * e.W = h * e.W + e.W := by ring
    have l1 : (h + 1) * e.width ≤ e.H * e.width := Nat.mul_le_mul_right _ (by omega)
    have l2 : (h + 1) * e.W ≤ e.H * e.W := Nat.mul_le_mul_right _ (by omega)
    have hc : c % 4 < 4 := Nat.mod_lt _ (by omega)
    have hi2 : size_t (size_t (s.i1 * 4) + c % 4) = 4 * (st.i1 + h * e.width) + c % 4 := by
      simp only [size_t, hi1]; omega
    obtain ⟨st2, r1, r2, r3, r4, r5⟩ := packW_loop f src e.width e.height e.W
      { s with i2 := size_t (size_t (s.i1 * 4) + c % 4) }
      (by intro k hk; show size_t (size_t (s.i1 * 4) + c % 4) + 4 * k < _; rw [hB, hi2]; omega)
      (by show size_t (size_t (s.i1 * 4) + c % 4) + 4 * e.W < _; rw [hi2]; omega)
      (by show s.p + e.W ≤ _; omega)
    refine ⟨{ st2 with i1 := size_t (st2.i1 + e.width) }, ?_, ?_, ?_, ?_, ?_⟩
    · show packH f src e c s = _
      unfold packH
      simp only [r1]
    · show st2.imageData = _
      rw [r2]
      simp only [hTrace, concatLoop]
      rw [applyWrites_append, ← hTrace, ← hi]
      show applyWrites f src s.imageData (wTrace (size_t (size_t (s.i1 * 4) + c % 4)) s.p e.W) = _
      rw [hi2, hp]
    · show st2.p = _
      rw [r3]; show s.p + e.W = _; omega
    · show size_t (st2.i1 + e.width) = _
      rw [r5]; show size_t (s.i1 + e.width) = _
      simp only [size_t, hi1]; omega
    · show st2.i0 = _
      rw [r4]; exact hi0

/-- The `c` loop for one batch entry, when the rows it visits lie inside the array. -/
theorem packC_loop {F Hf : Type} (f : F → Hf) (src : List F) (e : Extents) (X : Nat)
    (st : PackState Hf)
    (hB : size_t (size_t (e.width * e.height) * 4) = 4 * X) (hX : 4 * X < 2 ^ 64)
    (hW : e.W ≤ e.width) (hrow : st.i0 + e.H * e.width ≤ X)
    (hsrc : st.p + e.C * (e.H * e.W) ≤ src.length) :
    ∃ st', forLoop (fun c => packC f src e c) e.C st = .ok st' ∧
      st'.imageData = applyWrites f src st.imageData (cTrace st.i0 st.p e.width e.W e.H e.C) ∧
      st'.p = st.p + e.C * (e.H * e.W) ∧ st'.i0 = st.i0 := by
  have key := forLoop_inv (fun c => packC f src e c)
    (fun c s => s.imageData = applyWrites f src st.imageData (cTrace st.i0 st.p e.width e.W e.H c) ∧
      s.p = st.p + c * (e.H * e.W) ∧ s.i0 = st.i0)
    e.C st ⟨rfl, by simp, rfl⟩ ?_
  · obtain ⟨st', h1, h2, h3, h4⟩ := key
    exact ⟨st', h1, h2, by rw [h3, Nat.mul_comm], h4⟩
  · intro c hc s ⟨hi, hp, hi0⟩
    have e2 : (c + 1) * (e.H * e.W) = c * (e.H * e.W) + e.H * e.W := by ring
    have l2 : (c + 1) * (e.H * e.W) ≤ e.C * (e.H * e.W) := Nat.mul_le_mul_right _ (by omega)
    obtain ⟨st2, r1, r2, r3, r4⟩ := packH_loop f src e c X { s with i1 := s.i0 } hB hX hW
      (by show s.i0 + _ ≤ _; omega) (by show s.p + _ ≤ _; omega)
    refine ⟨st2, r1, ?_, ?_, ?_⟩
    · show st2.imageData = _
      rw [r2]
      simp only [cTrace, concatLoop]
      rw [applyWrites_append, ← cTrace, ← hi]
      show applyWrites f src s.imageData (hTrace s.i0 s.p e.width c e.W e.H) = _
      rw [hi0, hp]
    · show st2.p = _
      rw [r3]; show s.p + _ = _; omega
    · show st2.i0 = _
      rw [r4]; exact hi0

/-- The loop nest, when no `size_t` operation wraps, the block is at most as wide as
the image and the source is long enough: it ends with the stores of `nTrace` carried
out on the fresh array and `p` moved over `N * C * H * W` floats. -/
theorem packLoop_eq {F Hf : Type} (f : F → Hf) (fresh : Nat → Hf) (src : List F) (e : Extents)
    (hB : size_t (size_t (e.width * e.height) * 4) = 4 * (e.width * (e.H * e.N)))
    (hX : 4 * (e.width * (e.H * e.N)) < 2 ^ 64)
    (hW : e.W ≤ e.width)
    (hsrc : e.N * (e.C * (e.H * e.W)) ≤ src.length) :
    ∃ st', packLoop f fresh src e = .ok st' ∧
      st'.imageData = applyWrites f src ((List.range (4 * (e.width * (e.H * e.N)))).map fresh)
        (nTrace e.width e.W e.H e.C e.N) ∧
      st'.p = e.N * (e.C * (e.H * e.W)) := by
  have key := forLoop_inv (fun _ => packN f src e)
    (fun n s => s.imageData = applyWrites f src
        ((List.range (4 * (e.width * (e.H * e.N)))).map fresh) (nTrace e.width e.W e.H e.C n) ∧
      s.p = n * (e.C * (e.H * e.W)) ∧ s.i0 = n * (e.width * e.H))
    e.N { imageData := (List.range (size_t (size_t (e.width * e.height) * 4))).map fresh
          p := 0, i0 := 0, i1 := 0, i2 := 0 } ⟨by rw [hB]; rfl, by simp, by simp⟩ ?_
  · obtain ⟨st', h1, h2, h3, _⟩ := key
    exact ⟨st', h1, h2, h3⟩
  · intro n hn s ⟨hi, hp, hi0⟩
    have e1 : (n + 1) * (e.width * e.H) = n * (e.width * e.H) + e.width * e.H := by ring
    have e2 : (n + 1) * (e.C * (e.H * e.W)) = n * (e.C * (e.H * e.W)) + e.C * (e.H * e.W) := by
      ring
    have e3 : e.width * (e.H * e.N) = e.N * (e.width * e.H) := by ring
    have e4 : e.H * e.width = e.width * e.H := by ring
    have l1 : (n + 1) * (e.width * e.H) ≤ e.N * (e.width * e.H) :=
      Nat.mul_le_mul_right _ (by omega)
    have l2 : (n + 1) * (e.C * (e.H * e.W)) ≤ e.N * (e.C * (e.H * e.W)) :=
      Nat.mul_le_mul_right _ (by omega)
    obtain ⟨st2, r1, r2, r3, r4⟩ := packC_loop f src e (e.width * (e.H * e.N)) s hB hX hW
      (by omega) (by omega)
    refine ⟨{ st2 with i0 := size_t (st2.i0 + size_t (e.width * e.H)) }, ?_, ?_, ?_, ?_⟩
    · show packN f src e s = _
      unfold packN
      simp only [r1]
    · show st2.imageData = _
      rw [r2]
      simp only [nTrace, concatLoop]
      rw [applyWrites_append, ← nTrace, ← hi, hi0, hp]
    · show st2.p = _
      rw [r3]; omega
    · show size_t (st2.i0 + size_t (e.width * e.H)) = _
      rw [r4]
      simp only [size_t, hi0]; omega

/-! ## Layout lemmas -/

theorem ceil_div_four (C : Nat) : ⌈(C : ℚ) / 4⌉₊ = (C + 3) / 4 := by
  apply le_antisymm
  · apply Nat.ceil_le.mpr
    have h : C ≤ 4 * ((C + 3) / 4) := by omega
    have h' : (C : ℚ) ≤ 4 * (((C + 3) / 4 : Nat) : ℚ) := by exact_mod_cast h
    linarith
  · have h : (C : ℚ) / 4 ≤ (⌈(C : ℚ) / 4⌉₊ : ℚ) := Nat.le_ceil _
    have h' : (C : ℚ) ≤ 4 * (⌈(C : ℚ) / 4⌉₊ : ℚ) := by linarith
    have h'' : C ≤ 4 * ⌈(C : ℚ) / 4⌉₊ := by exact_mod_cast h'
    omega

/-- A size in the range of `size_t` is read unchanged. -/
theorem toSizeT_natCast (n : Nat) (h : n < 2 ^ 64) : toSizeT (n : Int) = n := by
  unfold toSizeT
  rw [Int.emod_eq_of_lt (by omega) (by omega)]
  simp

/-- A size below `2 ^ 63` is converted to `int64_t` unchanged. -/
theorem toInt64_natCast (n : Nat) (h : n < 2 ^ 63) : toInt64 (n : Int) = n := by
  unfold toInt64
  omega

/-- The locals `N, C, H, W` for a rank-4 shape with sizes in the range of `size_t`. -/
theorem readExtents_rank4 {Hf : Type} (rt : Runtime Hf) (N C H W : Nat)
    (hN : N < 2 ^ 64) (hC : C < 2 ^ 64) (hH : H < 2 ^ 64) (hW : W < 2 ^ 64) :
    readExtents rt [(N : Int), (C : Int), (H : Int), (W : Int)] = ⟨N, C, H, W⟩ := by
  simp [readExtents, DDim.size, DDim.at, toSizeT_natCast N hN, toSizeT_natCast C hC,
    toSizeT_natCast H hH, toSizeT_natCast W hW]

/-- The locals `N, C, H, W` for a rank-1 shape. -/
theorem readExtents_rank1 {Hf : Type} (rt : Runtime Hf) (C : Nat) (hC : C < 2 ^ 64) :
    readExtents rt [(C : Int)] = ⟨1, C, 1, 1⟩ := by
  simp [readExtents, DDim.size, DDim.at, toSizeT_natCast C hC]

/-- Without wrap-around `width` is `W * ((C + 3) / 4)`. -/
theorem width_eq (e : Extents) (h : e.W * e.C < 2 ^ 62) (hC : e.C < 2 ^ 62) :
    e.width = e.W * ((e.C + 3) / 4) := by
  have h1 : e.W * ((e.C + 3) / 4) ≤ e.W * e.C := Nat.mul_le_mul_left _ (by omega)
  unfold Extents.width size_t
  rw [Nat.mod_eq_of_lt (a := e.C + 3) (by omega)]
  exact Nat.mod_eq_of_lt (by omega)

/-- Without wrap-around `height` is `H * N`. -/
theorem height_eq (e : Extents) (h : e.H * e.N < 2 ^ 62) : e.height = e.H * e.N := by
  unfold Extents.height size_t
  exact Nat.mod_eq_of_lt (by omega)

/-- Consequences of `4 * numel < 2 ^ 64` for a shape with positive sizes. -/
theorem fits_bounds (N C H W : Nat) (hN : 1 ≤ N) (hC : 1 ≤ C) (hH : 1 ≤ H) (hW : 1 ≤ W)
    (hfit : 4 * (N * C * H * W) < 2 ^ 64) :
    N < 2 ^ 62 ∧ C < 2 ^ 62 ∧ H < 2 ^ 62 ∧ W < 2 ^ 62 ∧ W * C < 2 ^ 62 ∧ H * N < 2 ^ 62 ∧
      W * ((C + 3) / 4) * (H * N) ≤ N * C * H * W := by
  have a1 : N ≤ N * C * H * W := by
    calc N = N * 1 := by ring
      _ ≤ N * (C * H * W) := Nat.mul_le_mul_left _ (Nat.mul_pos (Nat.mul_pos hC hH) hW)
      _ = N * C * H * W := by ring
  have a2 : C ≤ N * C * H * W := by
    calc C = C * 1 := by ring
      _ ≤ C * (N * H * W) := Nat.mul_le_mul_left _ (Nat.mul_pos (Nat.mul_pos hN hH) hW)
      _ = N * C * H * W := by ring
  have a3 : H ≤ N * C * H * W := by
    calc H = H * 1 := by ring
      _ ≤ H * (N * C * W) := Nat.mul_le_mul_left _ (Nat.mul_pos (Nat.mul_pos hN hC) hW)
      _ = N * C * H * W := by ring
  have a4 : W ≤ N * C * H * W := by
    calc W = W * 1 := by ring
      _ ≤ W * (N * C * H) := Nat.mul_le_mul_left _ (Nat.mul_pos (Nat.mul_pos hN hC) hH)
      _ = N * C * H * W := by ring
  have a5 : W * C ≤ N * C * H * W := by
    calc W * C = W * C * 1 := by ring
      _ ≤ W * C * (N * H) := Nat.mul_le_mul_left _ (Nat.mul_pos hN hH)
      _ = N * C * H * W := by ring
  have a6 : H * N ≤ N * C * H * W := by
    calc H * N = H * N * 1 := by ring
      _ ≤ H * N * (C * W) := Nat.mul_le_mul_left _ (Nat.mul_pos hC hW)
      _ = N * C * H * W := by ring
  have a7 : W * ((C + 3) / 4) * (H * N) ≤ N * C * H * W := by
    calc W * ((C + 3) / 4) * (H * N) ≤ W * C * (H * N) :=
          Nat.mul_le_mul_right _ (Nat.mul_le_mul_left _ (by omega))
      _ = N * C * H * W := by ring
  refine ⟨?_, ?_, ?_, ?_, ?_, ?_, a7⟩ <;> omega

/-- The object the private `InitCLImage` leaves, on return and on its throw alike:
the staged and laid out object with the handle stored in `cl_image_`. -/
theorem InitCLImagePrivate_state {F Hf : Type} [Zero F] (f : F → Hf) (rt : Runtime Hf)
    (td : Option (List F)) (dim : DDim) (s s1 : CLImage F)
    (h : s.InitCLImagePrivate f rt td dim = .ok s1 ∨
      ∃ e, s.InitCLImagePrivate f rt td dim = .thrown e s1) :
    ∃ m, s1 = { (s.stage td dim).layout rt with cl_image_ := m } := by
  unfold CLImage.InitCLImagePrivate at h
  cases hp : pack f rt.new_half_t td (readExtents rt dim) with
  | error flt => simp [hp] at h
  | ok img =>
    simp only [hp] at h
    split at h
    · rcases h with h | ⟨e, h⟩
      · cases h
      · cases h; exact ⟨_, rfl⟩
    · rcases h with h | ⟨e, h⟩
      · cases h; exact ⟨_, rfl⟩
      · cases h

/-- After lines 121-134 `tensor_dims_` is `dim`. -/
theorem stage_tensor_dims {F : Type} [Zero F] (td : Option (List F)) (dim : DDim)
    (s : CLImage F) : (s.stage td dim).tensor_dims_ = dim := by
  unfold CLImage.stage; cases td <;> rfl

/-- A successful `InitCLImage(context)`, taken apart. -/
theorem InitCLImage_ok_inv {F Hf : Type} [Zero F] (f : F → Hf) (rt : Runtime Hf)
    (s s' : CLImage F) (h : s.InitCLImage f rt = .ok s') :
    ∃ buf s1, s.tensor_data_ = some buf ∧
      s.InitCLImagePrivate f rt (some buf) s.tensor_dims_ = .ok s1 ∧
      s' = { s1 with tensor_data_ := none, initialized_ := true } := by
  unfold CLImage.InitCLImage at h
  cases hd : s.tensor_data_ with
  | none => simp [hd] at h
  | some buf =>
    simp only [hd] at h
    cases hp : s.InitCLImagePrivate f rt (some buf) s.tensor_dims_ with
    | ok s1 => simp only [hp] at h; cases h; exact ⟨buf, s1, rfl, hp, rfl⟩
    | thrown e s1 => simp [hp] at h
    | fault flt => simp [hp] at h

/-- A successful `InitEmptyImage(context, dim)`, taken apart. -/
theorem InitEmptyImage_ok_inv {F Hf : Type} [Zero F] (f : F → Hf) (rt : Runtime Hf)
    (dim : DDim) (s s' : CLImage F) (h : s.InitEmptyImage f rt dim = .ok s') :
    ∃ s1, s.tensor_data_ = none ∧ s.InitCLImagePrivate f rt none dim = .ok s1 ∧
      s' = { s1 with initialized_ := true } := by
  unfold CLImage.InitEmptyImage at h
  cases hd : s.tensor_data_ with
  | some buf => simp [hd] at h
  | none =>
    simp only [hd] at h
    cases hp : s.InitCLImagePrivate f rt none dim with
    | ok s1 => simp only [hp] at h; cases h; exact ⟨s1, rfl, rfl, rfl⟩
    | thrown e s1 => simp [hp] at h
    | fault flt => simp [hp] at h

/-- What the layout computation leaves in the object for a rank-4 shape. -/
theorem layout_rank4 {F Hf : Type} [Zero F] (rt : Runtime Hf) (td : Option (List F))
    (N C H W : Nat) (hN : 1 ≤ N) (hC : 1 ≤ C) (hH : 1 ≤ H) (hW : 1 ≤ W)
    (hfit : 4 * (N * C * H * W) < 2 ^ 64) (s : CLImage F) :
    let s1 := (s.stage td [(N : Int), (C : Int), (H : Int), (W : Int)]).layout rt
    s1.image_width_ = W * ((C + 3) / 4) ∧ s1.image_height_ = H * N ∧
      s1.image_dims_ = [((W * ((C + 3) / 4) : Nat) : Int), ((H * N : Nat) : Int)] ∧
      s1.width_of_one_block_ = W ∧ s1.height_of_one_block_ = H := by
  obtain ⟨b1, b2, b3, b4, b5, b6, b7⟩ := fits_bounds N C H W hN hC hH hW hfit
  have he := readExtents_rank4 rt N C H W (by omega) (by omega) (by omega) (by omega)
  have hw : Extents.width ⟨N, C, H, W⟩ = W * ((C + 3) / 4) := width_eq _ b5 b2
  have hh : Extents.height ⟨N, C, H, W⟩ = H * N := height_eq _ b6
  have hwle : W * ((C + 3) / 4) ≤ W * C := Nat.mul_le_mul_left _ (by omega)
  simp only [CLImage.layout, stage_tensor_dims, he, hw, hh, DDim.size, make_ddim,
    List.length_cons, List.length_nil, List.map]
  rw [toInt64_natCast _ (by omega), toInt64_natCast _ (by omega)]
  simp

/-! ## The packing loop on shapes with positive sizes -/

theorem mem_nTrace (wd W H C N i q : Nat) :
    (i, q) ∈ nTrace wd W H C N ↔
      ∃ n, n < N ∧ ∃ c, c < C ∧ ∃ h, h < H ∧ ∃ w, w < W ∧
        i = 4 * (n * (wd * H) + h * wd) + c % 4 + 4 * w ∧
        q = n * (C * (H * W)) + c * (H * W) + h * W + w := by
  simp only [nTrace, cTrace, hTrace, wTrace, mem_concatLoop, List.mem_singleton,
    Prod.mk.injEq]

/-- The supported shapes: rank 4 with sizes `N, C, H, W`, or rank 1 with `C`
channels (and then `N = H = W = 1`). -/
theorem readExtents_valid {Hf : Type} (rt : Runtime Hf) (N C H W : Nat) (dim : DDim)
    (hN : N < 2 ^ 64) (hC : C < 2 ^ 64) (hH : H < 2 ^ 64) (hW : W < 2 ^ 64)
    (hdim : dim = [(N : Int), (C : Int), (H : Int), (W : Int)] ∨
      (N = 1 ∧ H = 1 ∧ W = 1 ∧ dim = [(C : Int)])) :
    readExtents rt dim = ⟨N, C, H, W⟩ := by
  rcases hdim with rfl | ⟨rfl, rfl, rfl, rfl⟩
  · exact readExtents_rank4 rt N C H W hN hC hH hW
  · exact readExtents_rank1 rt C hC

/-- The packing loop on a shape with positive sizes: it runs to its end, and the array
it leaves is the fresh array with the stores of `nTrace` carried out in order. -/
theorem packLoop_valid {F Hf : Type} (f : F → Hf) (fresh : Nat → Hf) (src : List F)
    (N C H W : Nat) (hN : 1 ≤ N) (hC : 1 ≤ C) (hH : 1 ≤ H) (hW : 1 ≤ W)
    (hfit : 4 * (N * C * H * W) < 2 ^ 64) (hlen : src.length = N * C * H * W) :
    ∃ st, packLoop f fresh src ⟨N, C, H, W⟩ = .ok st ∧
      st.imageData = applyWrites f src
        ((List.range (4 * (W * ((C + 3) / 4) * (H * N)))).map fresh)
        (nTrace (W * ((C + 3) / 4)) W H C N) ∧
      st.p = N * C * H * W := by
  obtain ⟨b1, b2, b3, b4, b5, b6, b7⟩ := fits_bounds N C H W hN hC hH hW hfit
  have hw : Extents.width ⟨N, C, H, W⟩ = W * ((C + 3) / 4) := width_eq _ b5 b2
  have hh : Extents.height ⟨N, C, H, W⟩ = H * N := height_eq _ b6
  have hWle : W ≤ W * ((C + 3) / 4) := Nat.le_mul_of_pos_right _ (by omega)
  have hsz : N * (C * (H * W)) = N * C * H * W := by ring
  obtain ⟨st, r1, r2, r3⟩ := packLoop_eq f fresh src ⟨N, C, H, W⟩
    (by rw [hw, hh]; simp only [size_t]; omega) (by rw [hw]; show 4 * (_ * (H * N)) < _; omega)
    (by rw [hw]; exact hWle) (by show N * (C * (H * W)) ≤ _; omega)
  refine ⟨st, r1, ?_, ?_⟩
  · rw [r2, hw]
  · rw [r3]; exact hsz

/-! ## Lemmas on the state -/

theorem layout_tensor_data {F Hf : Type} (rt : Runtime Hf) (s : CLImage F) :
    (s.layout rt).tensor_data_ = s.tensor_data_ := by
  simp only [CLImage.layout]; split <;> rfl

/-- The layout computation does not touch `initialized_`. -/
theorem layout_initialized {F Hf : Type} (rt : Runtime Hf) (s : CLImage F) :
    (s.layout rt).initialized_ = s.initialized_ := by
  simp only [CLImage.layout]; split <;> rfl

/-- The layout computation does not touch `tensor_dims_`. -/
theorem layout_tensor_dims {F Hf : Type} (rt : Runtime Hf) (s : CLImage F) :
    (s.layout rt).tensor_dims_ = s.tensor_dims_ := by
  simp only [CLImage.layout]; split <;> rfl

/-- With a buffer passed in, `tensor_data_` is that buffer. -/
theorem stage_some_tensor_data {F : Type} [Zero F] (buf : List F) (dim : DDim)
    (s : CLImage F) : (s.stage (some buf) dim).tensor_data_ = some buf := rfl

/-- Lines 121-134 do not touch `initialized_`. -/
theorem stage_initialized {F : Type} [Zero F] (td : Option (List F)) (dim : DDim)
    (s : CLImage F) : (s.stage td dim).initialized_ = s.initialized_ := by
  unfold CLImage.stage; cases td <;> rfl

/-- `InitCLImage(context)` on an object that holds a staged buffer, in one equation. -/
theorem InitCLImage_staged {F Hf : Type} [Zero F] (f : F → Hf) (rt : Runtime Hf)
    (s : CLImage F) (buf : List F) (hstaged : s.tensor_data_ = some buf) :
    s.InitCLImage f rt =
      match pack f rt.new_half_t (some buf) (readExtents rt s.tensor_dims_) with
      | .error flt => .fault flt
      | .ok imageData =>
        if (rt.clCreateImage2D (readExtents rt s.tensor_dims_).width
            (readExtents rt s.tensor_dims_).height imageData).2 ≠ CL_SUCCESS then
          .thrown .create_image_2d_error
            { (s.stage (some buf) s.tensor_dims_).layout rt with
              cl_image_ := (rt.clCreateImage2D (readExtents rt s.tensor_dims_).width
                (readExtents rt s.tensor_dims_).height imageData).1 }
        else
          .ok { (s.stage (some buf) s.tensor_dims_).layout rt with
              cl_image_ := (rt.clCreateImage2D (readExtents rt s.tensor_dims_).width
                (readExtents rt s.tensor_dims_).height imageData).1
              tensor_data_ := none
              initialized_ := true } := by
  unfold CLImage.InitCLImage CLImage.InitCLImagePrivate
  simp only [hstaged]
  cases pack f rt.new_half_t (some buf) (readExtents rt s.tensor_dims_) with
  | error flt => rfl
  | ok imageData =>
    by_cases hdev : (rt.clCreateImage2D (readExtents rt s.tensor_dims_).width
        (readExtents rt s.tensor_dims_).height imageData).2 = CL_SUCCESS
    · simp [hdev]
    · simp [hdev]

/-- A failed attempt leaves an object on which `InitCLImage(context)` does what it
does on the object before the attempt. -/
theorem InitCLImage_retry {F Hf : Type} [Zero F] (f : F → Hf) (rt rt' : Runtime Hf)
    (s : CLImage F) (buf : List F) (m : Nat) (hstaged : s.tensor_data_ = some buf) :
    CLImage.InitCLImage f rt'
        { (s.stage (some buf) s.tensor_dims_).layout rt with cl_image_ := m }
      = s.InitCLImage f rt' := by
  have ht : ({ (s.stage (some buf) s.tensor_dims_).layout rt with cl_image_ := m } :
      CLImage F).tensor_data_ = some buf := by
    show ((s.stage (some buf) s.tensor_dims_).layout rt).tensor_data_ = _
    rw [layout_tensor_data, stage_some_tensor_data]
  have hd : ({ (s.stage (some buf) s.tensor_dims_).layout rt with cl_image_ := m } :
      CLImage F).tensor_dims_ = s.tensor_dims_ := by
    show ((s.stage (some buf) s.tensor_dims_).layout rt).tensor_dims_ = _
    rw [layout_tensor_dims, stage_tensor_dims]
  rw [InitCLImage_staged f rt' s buf hstaged, InitCLImage_staged f rt' _ buf ht, hd]
  cases pack f rt'.new_half_t (some buf) (readExtents rt' s.tensor_dims_) with
  | error flt => rfl
  | ok img' =>
    simp only [CLImage.layout, CLImage.stage]
    by_cases hr : s.tensor_dims_.size = 4 ∨ s.tensor_dims_.size = 1 <;> simp [hr]

/-- The image extents the layout computation writes. -/
theorem layout_fields {F Hf : Type} [Zero F] (rt : Runtime Hf) (td : Option (List F))
    (dim : DDim) (s : CLImage F) :
    ((s.stage td dim).layout rt).image_width_ = (readExtents rt dim).width ∧
      ((s.stage td dim).layout rt).image_height_ = (readExtents rt dim).height := by
  refine ⟨?_, ?_⟩ <;> simp [CLImage.layout, stage_tensor_dims]

/-- With `N = 0` the loop body never runs. -/
theorem pack_zero_batch {F Hf : Type} (f : F → Hf) (fresh : Nat → Hf)
    (td : Option (List F)) (C H W : Nat) :
    ∃ img, pack f fresh td ⟨0, C, H, W⟩ = .ok img := by
  cases td with
  | none => exact ⟨none, rfl⟩
  | some src => exact ⟨_, rfl⟩

/-- The block extents written for a shape of rank 4 or 1. -/
theorem layout_block {F Hf : Type} [Zero F] (rt : Runtime Hf) (td : Option (List F))
    (dim : DDim) (s : CLImage F) (hrank : dim.size = 4 ∨ dim.size = 1) :
    ((s.stage td dim).layout rt).width_of_one_block_ = (readExtents rt dim).W ∧
      ((s.stage td dim).layout rt).height_of_one_block_ = (readExtents rt dim).H := by
  refine ⟨?_, ?_⟩ <;> simp [CLImage.layout, stage_tensor_dims, hrank]

/-- `memcpy` keeps the length of the destination. -/
theorem memcpy_length {F : Type} (mb : Nat → F → F → F) :
    ∀ (dst src : List F) (n : Nat), (memcpy mb dst src n).length = dst.length := by
  intro dst
  induction dst with
  | nil => intro src n; cases src <;> rfl
  | cons d ds ih =>
    intro src n
    cases src with
    | nil => rfl
    | cons x xs =>
      unfold memcpy
      split
      · simp [ih]
      · split <;> rfl

/-- A float that lies wholly within the first `n` bytes is copied. -/
theorem memcpy_copied {F : Type} (mb : Nat → F → F → F) :
    ∀ (dst src : List F) (n i : Nat), 4 * (i + 1) ≤ n → i < dst.length → i < src.length →
      (memcpy mb dst src n)[i]? = src[i]? := by
  intro dst
  induction dst with
  | nil => intro src n i _ hd _; simp at hd
  | cons d ds ih =>
    intro src n i hn hd hs
    cases src with
    | nil => simp at hs
    | cons x xs =>
      unfold memcpy
      rw [if_pos (by omega)]
      cases i with
      | zero => simp
      | succ j =>
        simp only [List.getElem?_cons_succ]
        exact ih xs (n - 4) j (by omega) (by simpa using hd) (by simpa using hs)

/-- A float that lies wholly beyond the first `n` bytes keeps the value of the destination. -/
theorem memcpy_kept {F : Type} (mb : Nat → F → F → F) :
    ∀ (dst src : List F) (n i : Nat), n ≤ 4 * i → (memcpy mb dst src n)[i]? = dst[i]? := by
  intro dst
  induction dst with
  | nil => intro src n i _; cases src <;> rfl
  | cons d ds ih =>
    intro src n i hn
    cases src with
    | nil => rfl
    | cons x xs =>
      unfold memcpy
      split
      · cases i with
        | zero => omega
        | succ j =>
          simp only [List.getElem?_cons_succ]
          exact ih xs (n - 4) j (by omega)
      · split
        · rfl
        · cases i with
          | zero => omega
          | succ j => rfl

/-! ## The properties C1 to C10 -/

/-- C1 (pack destination index), evaluated on the shape `(1, 5, 2, 3)` with the thirty
distinct source values `0, ..., 29`. The specification places element `(n, c, h, w)` at index
`((n * H + h) * pixelWidth + (c / 4) * W + w) * 4 + c % 4`. The loop restarts `i1` at
`i0` for every channel and never adds `(c / 4) * W`, so channel 4 is stored over
channel 0: the cell of element `(0, 0, 0, 0)` (index 0) holds source value `24`, that
of element `(0, 4, 0, 0)`, instead of `0`; and the cell the specification gives to element
`(0, 4, 0, 0)` (index 12) is never stored to and still holds the fresh value `777`. -/
theorem pack_1523_overwrites_first_block :
    pack id rtAccept.new_half_t (some (List.range 30)) (readExtents rtAccept [1, 5, 2, 3])
        = .ok (some packed1523) ∧
      packed1523[((0 * 2 + 0) * 6 + (0 / 4) * 3 + 0) * 4 + 0 % 4]? = some 24 ∧
      (List.range 30)[((0 * 5 + 0) * 2 + 0) * 3 + 0]? = some 0 ∧
      packed1523[((0 * 2 + 0) * 6 + (4 / 4) * 3 + 0) * 4 + 4 % 4]? = some 777 ∧
      (List.range 30)[((0 * 5 + 4) * 2 + 0) * 3 + 0]? = some 24 :=
  ⟨rfl, rfl, rfl, rfl, rfl⟩

/-- C2 (round trip), evaluated on the shape `(1, 5, 2, 3)` with the identity as codec.
The source buffers `0, 1, ..., 29` and `100, 1, ..., 29` differ in element
`(0, 0, 0, 0)` and are packed to the same array, because channel 4 is stored over
channel 0. Hence no function of the packed array, whatever its index mapping, returns
the source for both: the round trip is not the identity. -/
theorem pack_1523_loses_first_channel :
    pack id rtAccept.new_half_t (some (List.range 30)) (readExtents rtAccept [1, 5, 2, 3])
        = .ok (some packed1523) ∧
      pack id rtAccept.new_half_t (some ((List.range 30).set 0 100))
          (readExtents rtAccept [1, 5, 2, 3])
        = .ok (some packed1523) ∧
      ((List.range 30).set 0 100).length = 30 ∧
      (List.range 30)[0]? = some 0 ∧ ((List.range 30).set 0 100)[0]? = some 100 ∧
      ¬ ∃ unpack : List Nat → List Nat,
        unpack packed1523 = List.range 30 ∧ unpack packed1523 = (List.range 30).set 0 100 :=
  ⟨rfl, rfl, rfl, rfl, rfl,
    fun ⟨_, h1, h2⟩ => absurd (h1.symm.trans h2) (by decide)⟩

/-- C3 (rank-4 layout). For a rank-4 shape `(N, C, H, W)` with `N, C, H, W ≥ 1` whose
element count in bytes is below `2 ^ 64`, after a successful `InitCLImage(context)`
on an object holding that shape, or a successful `InitEmptyImage(context, shape)`:
`ImageWidth() = W * ⌈C / 4⌉`, `ImageHeight() = H * N`,
`ImageDims() = (ImageWidth, ImageHeight)`, `WidthOfOneBlock() = W` and
`HeightOfOneBlock() = H`. -/
theorem rank4_layout {F Hf : Type} [Zero F] (float2half : F → Hf) (rt : Runtime Hf)
    (N C H W : Nat) (hN : 1 ≤ N) (hC : 1 ≤ C) (hH : 1 ≤ H) (hW : 1 ≤ W)
    (hfit : 4 * (N * C * H * W) < 2 ^ 64) (s s' : CLImage F)
    (hmat : (s.tensor_dims_ = [(N : Int), (C : Int), (H : Int), (W : Int)] ∧
        s.InitCLImage float2half rt = .ok s') ∨
      s.InitEmptyImage float2half rt [(N : Int), (C : Int), (H : Int), (W : Int)] = .ok s') :
    s'.ImageWidth = W * ⌈(C : ℚ) / 4⌉₊ ∧ s'.ImageHeight = H * N ∧
      s'.ImageDims = [(s'.ImageWidth : Int), (s'.ImageHeight : Int)] ∧
      s'.WidthOfOneBlock = W ∧ s'.HeightOfOneBlock = H := by
  rw [ceil_div_four]
  rcases hmat with ⟨hd, h⟩ | h
  · obtain ⟨buf, s1, _, hp, rfl⟩ := InitCLImage_ok_inv float2half rt s s' h
    obtain ⟨m, rfl⟩ := InitCLImagePrivate_state float2half rt _ _ s s1 (Or.inl hp)
    rw [hd]
    obtain ⟨l1, l2, l3, l4, l5⟩ := layout_rank4 rt (some buf) N C H W hN hC hH hW hfit s
    simp only [CLImage.ImageWidth, CLImage.ImageHeight, CLImage.ImageDims,
      CLImage.WidthOfOneBlock, CLImage.HeightOfOneBlock]
    exact ⟨l1, l2, by rw [l3, l1, l2], l4, l5⟩
  · obtain ⟨s1, _, hp, rfl⟩ := InitEmptyImage_ok_inv float2half rt _ s s' h
    obtain ⟨m, rfl⟩ := InitCLImagePrivate_state float2half rt _ _ s s1 (Or.inl hp)
    obtain ⟨l1, l2, l3, l4, l5⟩ := layout_rank4 rt (none : Option (List F)) N C H W hN hC hH hW hfit s
    simp only [CLImage.ImageWidth, CLImage.ImageHeight, CLImage.ImageDims,
      CLImage.WidthOfOneBlock, CLImage.HeightOfOneBlock]
    exact ⟨l1, l2, by rw [l3, l1, l2], l4, l5⟩

/-- Witness of C3: the shape `(1, 5, 2, 3)` staged with thirty values and materialised on
an accepting device gives a `6 × 2` image with blocks of `3 × 2`. -/
theorem rank4_layout_witness :
    (stagedImage [1, 5, 2, 3] (List.range 30)).InitCLImage id rtAccept
        = .ok materialized1523 ∧
      materialized1523.ImageWidth = 3 * ⌈((5 : Nat) : ℚ) / 4⌉₊ ∧
      materialized1523.ImageHeight = 2 * 1 ∧
      materialized1523.ImageDims
        = [(materialized1523.ImageWidth : Int), (materialized1523.ImageHeight : Int)] ∧
      materialized1523.WidthOfOneBlock = 3 ∧ materialized1523.HeightOfOneBlock = 2 :=
  ⟨rfl, rank4_layout id rtAccept 1 5 2 3 (by decide) (by decide) (by decide) (by decide)
    (by decide) (stagedImage [1, 5, 2, 3] (List.range 30)) materialized1523
    (Or.inl ⟨rfl, rfl⟩)⟩

/-- C4 (rank-1 layout), evaluated on the rank-1 shape `(5)` with the source values
`10, 11, 12, 13, 14`. The layout is the specified one (`ImageWidth() = 2`,
`ImageHeight() = 1`, blocks of `1 × 1`), but the eight lanes are not in channel order:
lane 0 holds channel 4 (`14`) instead of channel 0 (`10`), and lane 4, where the
specification puts channel 4, is never stored to and holds the fresh value `777`. -/
theorem rank1_five_channels :
    (stagedImage [5] [10, 11, 12, 13, 14]).InitCLImage id rtAccept = .ok materialized5 ∧
      materialized5.ImageWidth = 2 ∧ materialized5.ImageHeight = 1 ∧
      materialized5.WidthOfOneBlock = 1 ∧ materialized5.HeightOfOneBlock = 1 ∧
      pack id rtAccept.new_half_t (some [10, 11, 12, 13, 14]) (readExtents rtAccept [5])
        = .ok (some [14, 11, 12, 13, 777, 777, 777, 777]) :=
  ⟨rfl, rfl, rfl, rfl, rfl, rfl⟩

/-- C5, as stated, fails: for the shape `(0, 1, 1, 1)` the batch size is not replaced
by `1`. Whether the device accepts or refuses the image, the object ends with
`ImageHeight() = 0`, not `H = 1`. -/
theorem zero_batch_not_normalized :
    (stagedImage [0, 1, 1, 1] []).InitCLImage id rtAccept = .ok materialized0111 ∧
      materialized0111.ImageHeight = 0 ∧ materialized0111.ImageHeight ≠ 1 ∧
      (stagedImage [0, 1, 1, 1] []).InitCLImage id rtRefuse
        = .thrown .create_image_2d_error refused0111 ∧
      refused0111.ImageHeight = 0 :=
  ⟨rfl, rfl, by decide, rfl, rfl⟩

/-- C5, amended (a zero batch size is kept). For a rank-4 shape `(0, C, H, W)` with
`C, H, W ≥ 1` (and `4 * C * H * W < 2 ^ 64`) the layout is computed with `N = 0`: the
private `InitCLImage` raises no assertion or read fault (the loop body never runs),
and after a successful `InitCLImage(context)` or `InitEmptyImage(context, shape)`
`ImageHeight() = 0` and `ImageWidth() = W * ⌈C / 4⌉`. -/
theorem zero_batch_layout {F Hf : Type} [Zero F] (float2half : F → Hf) (rt : Runtime Hf)
    (C H W : Nat) (hC : 1 ≤ C) (hH : 1 ≤ H) (hW : 1 ≤ W) (hfit : 4 * (C * H * W) < 2 ^ 64)
    (s : CLImage F) :
    (∀ td flt, s.InitCLImagePrivate float2half rt td [0, (C : Int), (H : Int), (W : Int)]
        ≠ .fault flt) ∧
    ∀ s', (s.tensor_dims_ = [0, (C : Int), (H : Int), (W : Int)] ∧
          s.InitCLImage float2half rt = .ok s') ∨
        s.InitEmptyImage float2half rt [0, (C : Int), (H : Int), (W : Int)] = .ok s' →
      s'.ImageHeight = 0 ∧ s'.ImageWidth = W * ⌈(C : ℚ) / 4⌉₊ := by
  obtain ⟨-, b2, b3, b4, b5, -, -⟩ := fits_bounds 1 C H W (by omega) hC hH hW
    (by simpa [Nat.mul_assoc] using hfit)
  have he : readExtents rt [0, (C : Int), (H : Int), (W : Int)] = ⟨0, C, H, W⟩ :=
    readExtents_rank4 rt 0 C H W (by omega) (by omega) (by omega) (by omega)
  have hw : Extents.width ⟨0, C, H, W⟩ = W * ((C + 3) / 4) := width_eq _ b5 b2
  have hh : Extents.height ⟨0, C, H, W⟩ = 0 := by simp [Extents.height, size_t]
  constructor
  · intro td flt
    obtain ⟨img, hp⟩ := pack_zero_batch float2half rt.new_half_t td C H W
    unfold CLImage.InitCLImagePrivate
    simp only [he, hp]
    split <;> simp
  · intro s' hmat
    rw [ceil_div_four]
    rcases hmat with ⟨hd, h⟩ | h
    · obtain ⟨buf, s1, _, hp, rfl⟩ := InitCLImage_ok_inv float2half rt s s' h
      obtain ⟨m, rfl⟩ := InitCLImagePrivate_state float2half rt _ _ s s1 (Or.inl hp)
      obtain ⟨l1, l2⟩ := layout_fields rt (some buf) s.tensor_dims_ s
      rw [hd, he] at l1 l2
      rw [hd]
      exact ⟨l2.trans hh, l1.trans hw⟩
    · obtain ⟨s1, _, hp, rfl⟩ := InitEmptyImage_ok_inv float2half rt _ s s' h
      obtain ⟨m, rfl⟩ := InitCLImagePrivate_state float2half rt _ _ s s1 (Or.inl hp)
      obtain ⟨l1, l2⟩ := layout_fields rt (none : Option (List F))
        [0, (C : Int), (H : Int), (W : Int)] s
      rw [he] at l1 l2
      exact ⟨l2.trans hh, l1.trans hw⟩

/-- Witness of the amended C5 at the shape `(0, 1, 1, 1)`. -/
theorem zero_batch_layout_witness :
    (stagedImage [0, 1, 1, 1] []).InitCLImage id rtAccept = .ok materialized0111 ∧
      materialized0111.ImageHeight = 0 ∧
      materialized0111.ImageWidth = 1 * ⌈((1 : Nat) : ℚ) / 4⌉₊ :=
  ⟨rfl, (zero_batch_layout id rtAccept 1 1 1 (by decide) (by decide) (by decide) (by decide)
    (stagedImage [0, 1, 1, 1] [])).2 materialized0111 (Or.inl ⟨rfl, rfl⟩)⟩

/-- The guard `if (N < 0)` is dead: `N` is a `size_t`, so the batch size `-1` is read as
`2 ^ 64 - 1` and is not replaced by `1` either. -/
theorem negative_batch_not_normalized :
    readExtents rtAccept [-1, 1, 1, 1] = ⟨2 ^ 64 - 1, 1, 1, 1⟩ ∧
      (readExtents rtAccept [-1, 1, 1, 1]).height = 2 ^ 64 - 1 ∧
      (readExtents rtAccept [-1, 1, 1, 1]).width = 1 :=
  ⟨by decide, by decide, by decide⟩

/-- C6, as stated, fails: for the shape `(1, 5, 2, 3)` the lane of pixel column 3,
lane 1 (channel index `4 * (3 / 3) + 1 = 5`, beyond `C = 5`) holds the value the fresh
array had there, `777`, and not zero. -/
theorem padding_lane_not_zero :
    pack id rtAccept.new_half_t (some (List.range 30)) (readExtents rtAccept [1, 5, 2, 3])
        = .ok (some packed1523) ∧
      5 ≤ 4 * (3 / 3) + 1 ∧
      packed1523[(0 * 6 + 3) * 4 + 1]? = some 777 ∧
      packed1523[(0 * 6 + 3) * 4 + 1]? ≠ some 0 :=
  ⟨rfl, by decide, rfl, by decide⟩

/-- C6, amended (padding lanes are not written). For a rank-4 shape with
`N, C, H, W ≥ 1`, or a rank-1 shape with `C ≥ 1`, and every source buffer, after
packing every lane that corresponds to no real channel (pixel row `row`, pixel column
`p`, lane `l` with `4 * (p / W) + l ≥ C`) still holds the value the fresh
`new half_t[...]` array had in that cell: the loop never stores there and nothing sets
the cell to zero. -/
theorem padding_lanes_keep_fresh_contents {F Hf : Type} (float2half : F → Hf)
    (rt : Runtime Hf) (N C H W : Nat) (hN : 1 ≤ N) (hC : 1 ≤ C) (hH : 1 ≤ H) (hW : 1 ≤ W)
    (hfit : 4 * (N * C * H * W) < 2 ^ 64) (dim : DDim)
    (hdim : dim = [(N : Int), (C : Int), (H : Int), (W : Int)] ∨
      (N = 1 ∧ H = 1 ∧ W = 1 ∧ dim = [(C : Int)]))
    (src : List F) (hlen : src.length = N * C * H * W) :
    ∃ imageData,
      pack float2half rt.new_half_t (some src) (readExtents rt dim) = .ok (some imageData) ∧
      ∀ row p l, row < (readExtents rt dim).height → p < (readExtents rt dim).width → l < 4 →
        C ≤ 4 * (p / W) + l →
        imageData[(row * (readExtents rt dim).width + p) * 4 + l]?
          = some (rt.new_half_t ((row * (readExtents rt dim).width + p) * 4 + l)) := by
  obtain ⟨b1, b2, b3, b4, b5, b6, b7⟩ := fits_bounds N C H W hN hC hH hW hfit
  have he := readExtents_valid rt N C H W dim (by omega) (by omega) (by omega) (by omega) hdim
  have hw : Extents.width ⟨N, C, H, W⟩ = W * ((C + 3) / 4) := width_eq _ b5 b2
  have hh : Extents.height ⟨N, C, H, W⟩ = H * N := height_eq _ b6
  obtain ⟨st, r1, r2, _⟩ := packLoop_valid float2half rt.new_half_t src N C H W hN hC hH hW
    hfit hlen
  refine ⟨st.imageData, by rw [he]; unfold pack; simp only [r1], ?_⟩
  rw [he, hw, hh]
  intro row p l hrow hp hl hpad
  generalize hwd : W * ((C + 3) / 4) = wd at *
  have hWle : W ≤ wd := by rw [← hwd]; exact Nat.le_mul_of_pos_right _ (by omega)
  rw [r2, applyWrites_getElem?_of_not_mem]
  · have l1 : (row + 1) * wd ≤ H * N * wd := Nat.mul_le_mul_right _ (by omega)
    have e1 : (row + 1) * wd = row * wd + wd := by ring
    have e2 : wd * (H * N) = H * N * wd := by ring
    have hj : (row * wd + p) * 4 + l < 4 * (wd * (H * N)) := by omega
    simp [List.getElem?_map, List.getElem?_range hj]
  · rintro ⟨i, q⟩ hmem
    obtain ⟨n, hn, c, hc, h, hh', w, hw', hi, _⟩ := (mem_nTrace _ _ _ _ _ _ _).mp hmem
    show i ≠ _
    intro heq
    have e3 : n * (wd * H) + h * wd = (n * H + h) * wd := by ring
    have hlc : l = c % 4 := by omega
    have hsum : w + (n * H + h) * wd = p + row * wd := by omega
    have hmod := congrArg (fun x => x % wd) hsum
    simp only [Nat.add_mul_mod_self_right] at hmod
    rw [Nat.mod_eq_of_lt (by omega), Nat.mod_eq_of_lt hp] at hmod
    have hdiv : p / W = 0 := Nat.div_eq_of_lt (by omega)
    have hcle : c % 4 ≤ c := Nat.mod_le _ _
    omega

/-- Witness of the amended C6 at the shape `(1, 5, 2, 3)`. -/
theorem padding_lanes_keep_fresh_contents_witness :
    ∃ imageData,
      pack id rtAccept.new_half_t (some (List.range 30)) (readExtents rtAccept [1, 5, 2, 3])
        = .ok (some imageData) ∧
      ∀ row p l, row < (readExtents rtAccept [1, 5, 2, 3]).height →
        p < (readExtents rtAccept [1, 5, 2, 3]).width → l < 4 → 5 ≤ 4 * (p / 3) + l →
        imageData[(row * (readExtents rtAccept [1, 5, 2, 3]).width + p) * 4 + l]?
          = some (rtAccept.new_half_t
              ((row * (readExtents rtAccept [1, 5, 2, 3]).width + p) * 4 + l)) :=
  padding_lanes_keep_fresh_contents id rtAccept 1 5 2 3 (by decide) (by decide) (by decide)
    (by decide) (by decide) [1, 5, 2, 3] (Or.inl rfl) (List.range 30) rfl

/-- C7 (staging preserves the data), evaluated on a four-element buffer `1, 2, 3, 4`
with the shape `(4)` and a fresh `new float[4]` holding `9` in every cell.
`memcpy(tensor_data_, tensorData, numel)` copies `numel = 4` bytes, that is one float:
`data<float>()` returns `1, 9, 9, 9`, while `dims()` is the shape and `numel()` is 4. -/
theorem SetTensorData_copies_numel_bytes :
    emptyImage.SetTensorData (fun _ s _ => s) (fun _ => 9) [1, 2, 3, 4] [4]
        = .ok (stagedImage [4] [1, 9, 9, 9]) ∧
      (stagedImage [4] [1, 9, 9, 9]).data = .ok (some [1, 9, 9, 9]) ∧
      (stagedImage [4] [1, 9, 9, 9]).dims = [4] ∧
      (stagedImage [4] [1, 9, 9, 9]).numel = 4 :=
  ⟨rfl, rfl, rfl, rfl⟩

/-- C8 (no overflow for valid shapes). For a rank-4 shape with `N, C, H, W ≥ 1`, or a
rank-1 shape with `C ≥ 1`, whose element count in bytes is below `2 ^ 64`, and a source
buffer of `N * C * H * W` floats, the packing loop runs to its end: the check
`i2 < width * height * 4` made before every store holds each time (and no read leaves
the source buffer), the array it fills has `ImageWidth * ImageHeight * 4` cells, and the
private `InitCLImage` never stops on the assertion. -/
theorem no_layout_overflow {F Hf : Type} [Zero F] (float2half : F → Hf) (rt : Runtime Hf)
    (N C H W : Nat) (hN : 1 ≤ N) (hC : 1 ≤ C) (hH : 1 ≤ H) (hW : 1 ≤ W)
    (hfit : 4 * (N * C * H * W) < 2 ^ 64) (dim : DDim)
    (hdim : dim = [(N : Int), (C : Int), (H : Int), (W : Int)] ∨
      (N = 1 ∧ H = 1 ∧ W = 1 ∧ dim = [(C : Int)]))
    (src : List F) (hlen : src.length = N * C * H * W) (s : CLImage F) :
    (∃ imageData,
      pack float2half rt.new_half_t (some src) (readExtents rt dim) = .ok (some imageData) ∧
      imageData.length = (readExtents rt dim).width * (readExtents rt dim).height * 4) ∧
    ∀ flt, s.InitCLImagePrivate float2half rt (some src) dim ≠ .fault flt := by
  obtain ⟨b1, b2, b3, b4, b5, b6, b7⟩ := fits_bounds N C H W hN hC hH hW hfit
  have he := readExtents_valid rt N C H W dim (by omega) (by omega) (by omega) (by omega) hdim
  have hw : Extents.width ⟨N, C, H, W⟩ = W * ((C + 3) / 4) := width_eq _ b5 b2
  have hh : Extents.height ⟨N, C, H, W⟩ = H * N := height_eq _ b6
  obtain ⟨st, r1, r2, _⟩ := packLoop_valid float2half rt.new_half_t src N C H W hN hC hH hW
    hfit hlen
  have hp : pack float2half rt.new_half_t (some src) (readExtents rt dim)
      = .ok (some st.imageData) := by
    rw [he]; unfold pack; simp only [r1]
  refine ⟨⟨st.imageData, hp, ?_⟩, ?_⟩
  · rw [he, hw, hh, r2, applyWrites_length, List.length_map, List.length_range]
    ring
  · intro flt
    unfold CLImage.InitCLImagePrivate
    simp only [hp]
    split <;> simp

/-- Witness of C8 at the shape `(1, 5, 2, 3)`. -/
theorem no_layout_overflow_witness :
    (∃ imageData,
      pack id rtAccept.new_half_t (some (List.range 30)) (readExtents rtAccept [1, 5, 2, 3])
        = .ok (some imageData) ∧
      imageData.length = (readExtents rtAccept [1, 5, 2, 3]).width *
        (readExtents rtAccept [1, 5, 2, 3]).height * 4) ∧
    ∀ flt, emptyImage.InitCLImagePrivate id rtAccept (some (List.range 30)) [1, 5, 2, 3]
      ≠ .fault flt :=
  no_layout_overflow id rtAccept 1 5 2 3 (by decide) (by decide) (by decide) (by decide)
    (by decide) [1, 5, 2, 3] (Or.inl rfl) (List.range 30) rfl emptyImage

/-- C9 (materialisation is atomic on device failure). On an object that holds a staged
buffer `buf` and is not initialised, once the packing loop has run to its end and
`clCreateImage2D` is called: if the device reports an error, `InitCLImage(context)`
throws " create image 2d error " and the object is still staged (`tensor_data_` holds
`buf` unchanged, `initialized_` is false, `dims()` is unchanged, `data<float>()` returns
the buffer, and a later `InitCLImage(context)` does what it would have done on the
object before the failed attempt); if the device reports `CL_SUCCESS`, the call returns,
`initialized_` is true and the staged buffer is released. -/
theorem materialize_atomic {F Hf : Type} [Zero F] (float2half : F → Hf) (rt : Runtime Hf)
    (s : CLImage F) (buf : List F) (imageData : Option (List Hf))
    (hstaged : s.tensor_data_ = some buf) (hinit : s.initialized_ = false)
    (hpack : pack float2half rt.new_half_t (some buf) (readExtents rt s.tensor_dims_)
      = .ok imageData) :
    ((rt.clCreateImage2D (readExtents rt s.tensor_dims_).width
        (readExtents rt s.tensor_dims_).height imageData).2 ≠ CL_SUCCESS →
      ∃ s', s.InitCLImage float2half rt = .thrown .create_image_2d_error s' ∧
        s'.tensor_data_ = some buf ∧ s'.initialized_ = false ∧ s'.dims = s.dims ∧
        s'.data = .ok (some buf) ∧
        ∀ rt' : Runtime Hf, s'.InitCLImage float2half rt' = s.InitCLImage float2half rt') ∧
    ((rt.clCreateImage2D (readExtents rt s.tensor_dims_).width
        (readExtents rt s.tensor_dims_).height imageData).2 = CL_SUCCESS →
      ∃ s', s.InitCLImage float2half rt = .ok s' ∧
        s'.initialized_ = true ∧ s'.tensor_data_ = none) := by
  have hrun := InitCLImage_staged float2half rt s buf hstaged
  rw [hpack] at hrun
  constructor
  · intro hdev
    simp only [if_pos hdev] at hrun
    refine ⟨_, hrun, ?_, ?_, ?_, ?_, ?_⟩
    · show ((s.stage (some buf) s.tensor_dims_).layout rt).tensor_data_ = _
      rw [layout_tensor_data, stage_some_tensor_data]
    · show ((s.stage (some buf) s.tensor_dims_).layout rt).initialized_ = _
      rw [layout_initialized, stage_initialized, hinit]
    · show ((s.stage (some buf) s.tensor_dims_).layout rt).tensor_dims_ = _
      rw [layout_tensor_dims, stage_tensor_dims]
      rfl
    · show (if ((s.stage (some buf) s.tensor_dims_).layout rt).initialized_ = true then _
        else Except.ok ((s.stage (some buf) s.tensor_dims_).layout rt).tensor_data_) = _
      rw [layout_initialized, stage_initialized, hinit, layout_tensor_data,
        stage_some_tensor_data]
      rfl
    · intro rt'
      exact InitCLImage_retry float2half rt rt' s buf _ hstaged
  · intro hdev
    simp only [if_neg (not_not.mpr hdev)] at hrun
    exact ⟨_, hrun, rfl, rfl⟩

/-- Witness of C9: the shape `(1, 5, 2, 3)` staged with thirty values, on a device that
refuses and on one that accepts. -/
theorem materialize_atomic_witness :
    (stagedImage [1, 5, 2, 3] (List.range 30)).InitCLImage id rtRefuse
        = .thrown .create_image_2d_error refused1523 ∧
    (∃ s', (stagedImage [1, 5, 2, 3] (List.range 30)).InitCLImage id rtRefuse
          = .thrown .create_image_2d_error s' ∧
        s'.tensor_data_ = some (List.range 30) ∧ s'.initialized_ = false ∧
        s'.dims = (stagedImage [1, 5, 2, 3] (List.range 30)).dims ∧
        s'.data = .ok (some (List.range 30)) ∧
        ∀ rt' : Runtime Nat, s'.InitCLImage id rt'
          = (stagedImage [1, 5, 2, 3] (List.range 30)).InitCLImage id rt') ∧
    (∃ s', (stagedImage [1, 5, 2, 3] (List.range 30)).InitCLImage id rtAccept = .ok s' ∧
        s'.initialized_ = true ∧ s'.tensor_data_ = none) :=
  ⟨rfl,
    (materialize_atomic id rtRefuse (stagedImage [1, 5, 2, 3] (List.range 30)) (List.range 30)
      (some packed1523) rfl rfl rfl).1 (by decide),
    (materialize_atomic id rtAccept (stagedImage [1, 5, 2, 3] (List.range 30)) (List.range 30)
      (some packed1523) rfl rfl rfl).2 (by decide)⟩

/-- C10 (host data is unreadable after materialisation). After a successful
`InitCLImage(context)` and after a successful `InitEmptyImage(context, dim)`,
`data<T>()` throws " cl image has initialized, tensor data has been deleted "; on an
object that holds a staged buffer and is not initialised, and on the object a
`SetTensorData` call returns when the object was not initialised before, `data<T>()`
returns the staged buffer. -/
theorem data_after_materialize {F Hf : Type} [Zero F] (float2half : F → Hf)
    (rt : Runtime Hf) (s s' : CLImage F) :
    (s.InitCLImage float2half rt = .ok s' → s'.data = .error .cl_image_has_initialized) ∧
    (∀ dim, s.InitEmptyImage float2half rt dim = .ok s' →
      s'.data = .error .cl_image_has_initialized) ∧
    (∀ buf, s.tensor_data_ = some buf → s.initialized_ = false → s.data = .ok (some buf)) ∧
    (∀ mergeBytes new_float tensorData dim, s.initialized_ = false →
      s.SetTensorData mergeBytes new_float tensorData dim = .ok s' →
      ∃ buf, s'.tensor_data_ = some buf ∧ s'.data = .ok (some buf)) := by
  refine ⟨?_, ?_, ?_, ?_⟩
  · intro h
    obtain ⟨buf, s1, _, _, rfl⟩ := InitCLImage_ok_inv float2half rt s s' h
    rfl
  · intro dim h
    obtain ⟨s1, _, _, rfl⟩ := InitEmptyImage_ok_inv float2half rt dim s s' h
    rfl
  · intro buf hb hi
    simp [CLImage.data, hb, hi]
  · intro mergeBytes new_float tensorData dim hi h
    unfold CLImage.SetTensorData at h
    simp only at h
    split at h
    · cases h
    · cases h
      exact ⟨_, rfl, by simp [CLImage.data, hi]⟩

/-- Witness of C10: the shape `(1, 5, 2, 3)` before and after materialisation. -/
theorem data_after_materialize_witness :
    (stagedImage [1, 5, 2, 3] (List.range 30)).InitCLImage id rtAccept
        = .ok materialized1523 ∧
      materialized1523.data = .error .cl_image_has_initialized ∧
      (stagedImage [1, 5, 2, 3] (List.range 30)).data = .ok (some (List.range 30)) :=
  ⟨rfl,
    (data_after_materialize id rtAccept (stagedImage [1, 5, 2, 3] (List.range 30))
      materialized1523).1 rfl,
    (data_after_materialize id rtAccept (stagedImage [1, 5, 2, 3] (List.range 30))
      materialized1523).2.2.1 (List.range 30) rfl rfl⟩

/-! ## Lemmas for sequences of calls and for single iterations -/

/-- A throwing `InitCLImage(context)`, taken apart: either nothing is staged and the
object is untouched, or the device refused and the object is the staged and laid out
one. -/
theorem InitCLImage_thrown_inv {F Hf : Type} [Zero F] (f : F → Hf) (rt : Runtime Hf)
    (s s' : CLImage F) (e : Exception) (h : s.InitCLImage f rt = .thrown e s') :
    (s.tensor_data_ = none ∧ s' = s) ∨
      ∃ buf m, s.tensor_data_ = some buf ∧
        s' = { (s.stage (some buf) s.tensor_dims_).layout rt with cl_image_ := m } := by
  cases hd : s.tensor_data_ with
  | none =>
    left
    unfold CLImage.InitCLImage at h
    rw [hd] at h
    cases h
    exact ⟨rfl, rfl⟩
  | some buf =>
    right
    rw [InitCLImage_staged f rt s buf hd] at h
    cases hp : pack f rt.new_half_t (some buf) (readExtents rt s.tensor_dims_) with
    | error flt => rw [hp] at h; cases h
    | ok img =>
      rw [hp] at h
      simp only at h
      split at h
      · cases h; exact ⟨buf, _, rfl, rfl⟩
      · cases h

/-- A throwing `InitEmptyImage(context, dim)`, taken apart. -/
theorem InitEmptyImage_thrown_inv {F Hf : Type} [Zero F] (f : F → Hf) (rt : Runtime Hf)
    (dim : DDim) (s s' : CLImage F) (e : Exception)
    (h : s.InitEmptyImage f rt dim = .thrown e s') :
    ((∃ buf, s.tensor_data_ = some buf) ∧ s' = s) ∨
      (s.tensor_data_ = none ∧
        ∃ m, s' = { (s.stage none dim).layout rt with cl_image_ := m }) := by
  unfold CLImage.InitEmptyImage at h
  cases hd : s.tensor_data_ with
  | some buf =>
    left
    simp only [hd] at h
    cases h
    exact ⟨⟨buf, rfl⟩, rfl⟩
  | none =>
    right
    simp only [hd] at h
    cases hp : s.InitCLImagePrivate f rt none dim with
    | ok s1 => simp [hp] at h
    | fault flt => simp [hp] at h
    | thrown e1 s1 =>
      simp only [hp] at h
      cases h
      obtain ⟨m, hm⟩ := InitCLImagePrivate_state f rt none dim s s' (Or.inr ⟨_, hp⟩)
      exact ⟨rfl, m, hm⟩

/-- A returning `SetTensorData`, taken apart. -/
theorem SetTensorData_ok_inv {F : Type} (mergeBytes : Nat → F → F → F) (new_float : Nat → F)
    (tensorData : List F) (dim : DDim) (s s' : CLImage F)
    (h : s.SetTensorData mergeBytes new_float tensorData dim = .ok s') :
    0 ≤ toInt (product dim) ∧
      s' = { s with
        tensor_data_ := some (memcpy mergeBytes
          ((List.range (toInt (product dim)).toNat).map new_float) tensorData
          (toInt (product dim)).toNat)
        tensor_dims_ := dim } := by
  unfold CLImage.SetTensorData at h
  simp only at h
  split at h
  · cases h
  · rename_i hneg
    cases h
    exact ⟨by omega, rfl⟩

/-- Conversion to `int` leaves a value in the range of `int` as it is. -/
theorem toInt_of_range (x : Int) (h0 : 0 ≤ x) (h1 : x < 2 ^ 31) : toInt x = x := by
  unfold toInt
  omega

/-- Conversion to `int` after a multiplication does not depend on an earlier conversion
of a factor. -/
theorem toInt_mul_toInt (a d : Int) : toInt (toInt a * d) = toInt (a * d) := by
  have h : toInt a = a - (a + 2 ^ 31) / 2 ^ 32 * 2 ^ 32 := by
    unfold toInt
    omega
  have e : toInt a * d + 2 ^ 31 = a * d + 2 ^ 31 + (-((a + 2 ^ 31) / 2 ^ 32 * d)) * 2 ^ 32 := by
    rw [h]; ring
  unfold toInt at e ⊢
  rw [e, Int.add_mul_emod_self]

/-- The `int` product accumulated by the loop of lines 125-128 is the product of the
sizes converted to `int`. -/
theorem foldl_toInt (dim : DDim) :
    ∀ a : Int, dim.foldl (fun acc d => toInt (acc * d)) (toInt a)
      = toInt (dim.foldl (fun acc d => acc * d) a) := by
  induction dim with
  | nil => intro a; rfl
  | cons d ds ih =>
    intro a
    simp only [List.foldl_cons]
    rw [toInt_mul_toInt, ih]

/-- The element count the `nullptr` branch computes, for a shape whose element count is
a non-negative `int`. -/
theorem numel_int (dim : DDim) (h0 : 0 ≤ product dim) (h1 : product dim < 2 ^ 31) :
    dim.foldl (fun acc d => toInt (acc * d)) 1 = product dim := by
  have h := foldl_toInt dim 1
  rw [toInt_of_range 1 (by omega) (by omega)] at h
  rw [h]
  exact toInt_of_range _ h0 h1

/-- The first `k` iterations of the `w` loop: the stores of `wTrace`, `i2` advanced by
`4 * k` and `p` by `k`. -/
theorem packW_run {F Hf : Type} (f : F → Hf) (src : List F) (wd ht k : Nat)
    (st : PackState Hf)
    (hB : ∀ j, j < k → st.i2 + 4 * j < size_t (size_t (wd * ht) * 4))
    (h64 : st.i2 + 4 * k < 2 ^ 64) (hsrc : st.p + k ≤ src.length) :
    ∃ st', forLoop (fun _ => packW f src wd ht) k st = .ok st' ∧
      st'.imageData = applyWrites f src st.imageData (wTrace st.i2 st.p k) ∧
      st'.p = st.p + k ∧ st'.i2 = st.i2 + 4 * k ∧ st'.i0 = st.i0 ∧ st'.i1 = st.i1 := by
  refine forLoop_inv (fun _ => packW f src wd ht)
    (fun k s => s.imageData = applyWrites f src st.imageData (wTrace st.i2 st.p k) ∧
      s.p = st.p + k ∧ s.i2 = st.i2 + 4 * k ∧ s.i0 = st.i0 ∧ s.i1 = st.i1)
    k st ⟨rfl, rfl, rfl, rfl, rfl⟩ ?_
  intro j hj s ⟨hi, hp, hi2, hi0, hi1⟩
  have hlt : st.p + j < src.length := by omega
  have hb := hB j hj
  have hget : src[s.p]? = some (src[st.p + j]) := by
    rw [hp]; exact List.getElem?_eq_getElem hlt
  refine ⟨{ s with
    imageData := s.imageData.set s.i2 (f (src[st.p + j]))
    i2 := size_t (s.i2 + 4)
    p := s.p + 1 }, ?_, ?_⟩
  · show packW f src wd ht s = _
    unfold packW
    rw [if_neg (by omega), hget]
  · refine ⟨?_, ?_, ?_, hi0, hi1⟩
    · show List.set _ _ _ = _
      simp only [wTrace, concatLoop]
      rw [applyWrites_append, ← wTrace, ← hi]
      simp [applyWrites, hi2, List.getElem?_eq_getElem hlt]
    · show s.p + 1 = _
      omega
    · show size_t (s.i2 + 4) = _
      simp only [size_t, hi2]; omega

/-- The first `k` iterations of the `h` loop for channel `c`. The block has to fit the
image width only if the loop has an iteration at all. -/
theorem packH_run {F Hf : Type} (f : F → Hf) (src : List F) (e : Extents) (c X k : Nat)
    (st : PackState Hf) (hk : k ≤ e.H)
    (hB : size_t (size_t (e.width * e.height) * 4) = 4 * X) (hX : 4 * X < 2 ^ 64)
    (hW : 0 < e.H → e.W ≤ e.width) (hrow : st.i1 + e.H * e.width ≤ X)
    (hsrc : st.p + e.H * e.W ≤ src.length) :
    ∃ st', forLoop (fun _ => packH f src e c) k st = .ok st' ∧
      st'.imageData = applyWrites f src st.imageData (hTrace st.i1 st.p e.width c e.W k) ∧
      st'.p = st.p + k * e.W ∧ st'.i1 = st.i1 + k * e.width ∧ st'.i0 = st.i0 := by
  refine forLoop_inv (fun _ => packH f src e c)
    (fun h s => s.imageData = applyWrites f src st.imageData (hTrace st.i1 st.p e.width c e.W h) ∧
      s.p = st.p + h * e.W ∧ s.i1 = st.i1 + h * e.width ∧ s.i0 = st.i0)
    k st ⟨rfl, by simp, by simp, rfl⟩ ?_
  intro h hh s ⟨hi, hp, hi1, hi0⟩
  have hW' : e.W ≤ e.width := hW (by omega)
  have e1 : (h + 1) * e.width = h * e.width + e.width := by ring
  have e2 : (h + 1) * e.W = h * e.W + e.W := by ring
  have l1 : (h + 1) * e.width ≤ e.H * e.width := Nat.mul_le_mul_right _ (by omega)
  have l2 : (h + 1) * e.W ≤ e.H * e.W := Nat.mul_le_mul_right _ (by omega)
  have hc : c % 4 < 4 := Nat.mod_lt _ (by omega)
  have hi2 : size_t (size_t (s.i1 * 4) + c % 4) = 4 * (st.i1 + h * e.width) + c % 4 := by
    simp only [size_t, hi1]; omega
  obtain ⟨st2, r1, r2, r3, r4, r5⟩ := packW_loop f src e.width e.height e.W
    { s with i2 := size_t (size_t (s.i1 * 4) + c % 4) }
    (by intro j hj; show size_t (size_t (s.i1 * 4) + c % 4) + 4 * j < _; rw [hB, hi2]; omega)
    (by show size_t (size_t (s.i1 * 4) + c % 4) + 4 * e.W < _; rw [hi2]; omega)
    (by show s.p + e.W ≤ _; omega)
  refine ⟨{ st2 with i1 := size_t (st2.i1 + e.width) }, ?_, ?_, ?_, ?_, ?_⟩
  · show packH f src e c s = _
    unfold packH
    simp only [r1]
  · show st2.imageData = _
    rw [r2]
    simp only [hTrace, concatLoop]
    rw [applyWrites_append, ← hTrace, ← hi]
    show applyWrites f src s.imageData (wTrace (size_t (size_t (s.i1 * 4) + c % 4)) s.p e.W) = _
    rw [hi2, hp]
  · show st2.p = _
    rw [r3]; show s.p + e.W = _; omega
  · show size_t (st2.i1 + e.width) = _
    rw [r5]; show size_t (s.i1 + e.width) = _
    simp only [size_t, hi1]; omega
  · show st2.i0 = _
    rw [r4]; exact hi0

/-- The first `k` iterations of the `c` loop for one batch entry. -/
theorem packC_run {F Hf : Type} (f : F → Hf) (src : List F) (e : Extents) (X k : Nat)
    (st : PackState Hf) (hk : k ≤ e.C)
    (hB : size_t (size_t (e.width * e.height) * 4) = 4 * X) (hX : 4 * X < 2 ^ 64)
    (hW : 0 < e.H → e.W ≤ e.width) (hrow : st.i0 + e.H * e.width ≤ X)
    (hsrc : st.p + e.C * (e.H * e.W) ≤ src.length) :
    ∃ st', forLoop (fun c => packC f src e c) k st = .ok st' ∧
      st'.imageData = applyWrites f src st.imageData (cTrace st.i0 st.p e.width e.W e.H k) ∧
      st'.p = st.p + k * (e.H * e.W) ∧ st'.i0 = st.i0 := by
  refine forLoop_inv (fun c => packC f src e c)
    (fun c s => s.imageData = applyWrites f src st.imageData (cTrace st.i0 st.p e.width e.W e.H c) ∧
      s.p = st.p + c * (e.H * e.W) ∧ s.i0 = st.i0)
    k st ⟨rfl, by simp, rfl⟩ ?_
  intro c hc s ⟨hi, hp, hi0⟩
  have e2 : (c + 1) * (e.H * e.W) = c * (e.H * e.W) + e.H * e.W := by ring
  have l2 : (c + 1) * (e.H * e.W) ≤ e.C * (e.H * e.W) := Nat.mul_le_mul_right _ (by omega)
  obtain ⟨st2, r1, r2, r3, _, r4⟩ := packH_run f src e c X e.H { s with i1 := s.i0 }
    (Nat.le_refl _) hB hX hW (by show s.i0 + _ ≤ _; omega) (by show s.p + _ ≤ _; omega)
  refine ⟨st2, r1, ?_, ?_, ?_⟩
  · show st2.imageData = _
    rw [r2]
    simp only [cTrace, concatLoop]
    rw [applyWrites_append, ← cTrace, ← hi]
    show applyWrites f src s.imageData (hTrace s.i0 s.p e.width c e.W e.H) = _
    rw [hi0, hp]
  · show st2.p = _
    rw [r3]; show s.p + _ = _; omega
  · show st2.i0 = _
    rw [r4]; exact hi0

/-- The first `k` iterations of the `n` loop, started as in `packLoop`. -/
theorem packN_run {F Hf : Type} (f : F → Hf) (fresh : Nat → Hf) (src : List F) (e : Extents)
    (k : Nat) (hk : k ≤ e.N)
    (hB : size_t (size_t (e.width * e.height) * 4) = 4 * (e.width * (e.H * e.N)))
    (hX : 4 * (e.width * (e.H * e.N)) < 2 ^ 64)
    (hW : 0 < e.N → 0 < e.C → 0 < e.H → e.W ≤ e.width)
    (hsrc : e.N * (e.C * (e.H * e.W)) ≤ src.length) :
    ∃ st', forLoop (fun _ => packN f src e) k
        { imageData := (List.range (size_t (size_t (e.width * e.height) * 4))).map fresh
          p := 0, i0 := 0, i1 := 0, i2 := 0 } = .ok st' ∧
      st'.imageData = applyWrites f src ((List.range (4 * (e.width * (e.H * e.N)))).map fresh)
        (nTrace e.width e.W e.H e.C k) ∧
      st'.p = k * (e.C * (e.H * e.W)) ∧ st'.i0 = k * (e.width * e.H) := by
  refine forLoop_inv (fun _ => packN f src e)
    (fun n s => s.imageData = applyWrites f src
        ((List.range (4 * (e.width * (e.H * e.N)))).map fresh) (nTrace e.width e.W e.H e.C n) ∧
      s.p = n * (e.C * (e.H * e.W)) ∧ s.i0 = n * (e.width * e.H))
    k _ ⟨by rw [hB]; rfl, by simp, by simp⟩ ?_
  intro n hn s ⟨hi, hp, hi0⟩
  have e1 : (n + 1) * (e.width * e.H) = n * (e.width * e.H) + e.width * e.H := by ring
  have e2 : (n + 1) * (e.C * (e.H * e.W)) = n * (e.C * (e.H * e.W)) + e.C * (e.H * e.W) := by
    ring
  have e3 : e.width * (e.H * e.N) = e.N * (e.width * e.H) := by ring
  have e4 : e.H * e.width = e.width * e.H := by ring
  have l1 : (n + 1) * (e.width * e.H) ≤ e.N * (e.width * e.H) :=
    Nat.mul_le_mul_right _ (by omega)
  have l2 : (n + 1) * (e.C * (e.H * e.W)) ≤ e.N * (e.C * (e.H * e.W)) :=
    Nat.mul_le_mul_right _ (by omega)
  by_cases hC0 : e.C = 0
  · refine ⟨{ s with i0 := size_t (s.i0 + size_t (e.width * e.H)) }, ?_, ?_, ?_, ?_⟩
    · show packN f src e s = _
      unfold packN
      rw [hC0]
      rfl
    · show s.imageData = _
      rw [hi]
      simp only [nTrace, concatLoop, cTrace, hC0, List.append_nil]
    · show s.p = _
      rw [hp, hC0]; simp
    · show size_t (s.i0 + size_t (e.width * e.H)) = _
      simp only [size_t, hi0]; omega
  · obtain ⟨st2, r1, r2, r3, r4⟩ := packC_run f src e (e.width * (e.H * e.N)) e.C s
      (Nat.le_refl _) hB hX (hW (by omega) (by omega)) (by omega) (by omega)
    refine ⟨{ st2 with i0 := size_t (st2.i0 + size_t (e.width * e.H)) }, ?_, ?_, ?_, ?_⟩
    · show packN f src e s = _
      unfold packN
      simp only [r1]
    · show st2.imageData = _
      rw [r2]
      simp only [nTrace, concatLoop]
      rw [applyWrites_append, ← nTrace, ← hi, hi0, hp]
    · show st2.p = _
      rw [r3]; omega
    · show size_t (st2.i0 + size_t (e.width * e.H)) = _
      rw [r4]
      simp only [size_t, hi0]; omega

/-- What `4 * N * C * H * W < 2 ^ 64` gives for the loop on any sizes, zero included: the
bound of the assertion is `4 * width * H * N` without wrap-around, and if there is an
iteration at all a block is at most as wide as the image. -/
theorem pack_facts (N C H W : Nat) (hfit : 4 * (N * C * H * W) < 2 ^ 64) :
    size_t (size_t (Extents.width ⟨N, C, H, W⟩ * Extents.height ⟨N, C, H, W⟩) * 4)
        = 4 * (Extents.width ⟨N, C, H, W⟩ * (H * N)) ∧
      4 * (Extents.width ⟨N, C, H, W⟩ * (H * N)) < 2 ^ 64 ∧
      (0 < N → 0 < C → 0 < H → W ≤ Extents.width ⟨N, C, H, W⟩) := by
  by_cases hpos : 0 < N ∧ 0 < C ∧ 0 < H ∧ 0 < W
  · obtain ⟨hN, hC, hH, hW⟩ := hpos
    obtain ⟨b1, b2, b3, b4, b5, b6, b7⟩ := fits_bounds N C H W hN hC hH hW hfit
    have hw : Extents.width ⟨N, C, H, W⟩ = W * ((C + 3) / 4) := width_eq _ b5 b2
    have hh : Extents.height ⟨N, C, H, W⟩ = H * N := height_eq _ b6
    have hWle : W ≤ W * ((C + 3) / 4) := Nat.le_mul_of_pos_right _ (by omega)
    rw [hw, hh]
    refine ⟨?_, ?_, fun _ _ _ => hWle⟩
    · simp only [size_t]; omega
    · omega
  · by_cases hW : W = 0
    · have hw : Extents.width ⟨N, C, H, W⟩ = 0 := by simp [Extents.width, size_t, hW]
      rw [hw]
      exact ⟨by simp [size_t], by simp, fun _ _ _ => by omega⟩
    · by_cases hC : C = 0
      · have hw : Extents.width ⟨N, C, H, W⟩ = 0 := by simp [Extents.width, size_t, hC]
        rw [hw]
        exact ⟨by simp [size_t], by simp, fun _ h _ => by omega⟩
      · have hHN : H * N = 0 := by
          by_cases hH : H = 0
          · simp [hH]
          · by_cases hN : N = 0
            · simp [hN]
            · exact absurd ⟨by omega, by omega, by omega, by omega⟩ hpos
        have hh : Extents.height ⟨N, C, H, W⟩ = 0 := by simp [Extents.height, size_t, hHN]
        rw [hh, hHN]
        refine ⟨by simp [size_t], by simp, fun hN _ hH => ?_⟩
        rcases Nat.mul_eq_zero.mp hHN with h | h <;> omega

/-- A cell addressed by a store of the list, when every store to that cell reads the same
source element, holds that element converted. -/
theorem applyWrites_getElem?_of_unique {F Hf : Type} (f : F → Hf) (src : List F)
    (ws : List (Nat × Nat)) (i q : Nat) (x : F) (hx : src[q]? = some x) :
    ∀ img : List Hf, i < img.length → (i, q) ∈ ws →
      (∀ w ∈ ws, w.1 = i → w.2 = q) → (applyWrites f src img ws)[i]? = some (f x) := by
  induction ws with
  | nil => intro img _ hmem; cases hmem
  | cons w ws ih =>
    intro img hlt hmem huniq
    have hstep : applyWrites f src img (w :: ws)
        = applyWrites f src (applyWrites f src img [w]) ws :=
      applyWrites_append f src img [w] ws
    rw [hstep]
    by_cases hin : (i, q) ∈ ws
    · exact ih _ (by rw [applyWrites_length]; exact hlt) hin
        (fun w' hw' => huniq w' (List.mem_cons_of_mem _ hw'))
    · have hw : w = (i, q) := by
        rcases List.mem_cons.mp hmem with h | h
        · exact h.symm
        · exact absurd h hin
      rw [applyWrites_getElem?_of_not_mem]
      · subst hw
        simp [applyWrites, hx, hlt]
      · intro w' hw' heq
        have := huniq w' (List.mem_cons_of_mem _ hw') heq
        apply hin
        have hw'' : w' = (i, q) := Prod.ext heq this
        rw [← hw'']
        exact hw'

/-- A number written as `a * k + b` with `b < k` determines `a` and `b`. -/
theorem mul_add_inj (k a b a' b' : Nat) (hb : b < k) (hb' : b' < k)
    (h : a * k + b = a' * k + b') : a = a' ∧ b = b' := by
  have hk : 0 < k := by omega
  have h1 : (a * k + b) / k = a := by
    rw [Nat.mul_comm, Nat.mul_add_div hk, Nat.div_eq_of_lt hb]; rfl
  have h2 : (a' * k + b') / k = a' := by
    rw [Nat.mul_comm, Nat.mul_add_div hk, Nat.div_eq_of_lt hb']; rfl
  have ha : a = a' := by rw [← h1, ← h2, h]
  subst ha
  exact ⟨rfl, by omega⟩

/-- With at most four channels the destination index determines `(n, c, h, w)`. -/
theorem destination_inj (wd H W : Nat) (hW : W ≤ wd) (n c h w n' c' h' w' : Nat)
    (hc : c < 4) (hh : h < H) (hw : w < W) (hc' : c' < 4) (hh' : h' < H) (hw' : w' < W)
    (heq : ((n * H + h) * wd + w) * 4 + c = ((n' * H + h') * wd + w') * 4 + c') :
    n = n' ∧ c = c' ∧ h = h' ∧ w = w' := by
  obtain ⟨h1, h2⟩ := mul_add_inj 4 _ c _ c' hc hc' heq
  obtain ⟨h3, h4⟩ := mul_add_inj wd _ w _ w' (by omega) (by omega) h1
  obtain ⟨h5, h6⟩ := mul_add_inj H n h n' h' hh hh' h3
  exact ⟨h5, h2, h6, h4⟩

/-- The layout computation does not touch `c_block_`. -/
theorem layout_c_block {F Hf : Type} (rt : Runtime Hf) (s : CLImage F) :
    (s.layout rt).c_block_ = s.c_block_ := by
  simp only [CLImage.layout]; split <;> rfl

/-- Lines 121-134 do not touch `c_block_`. -/
theorem stage_c_block {F : Type} [Zero F] (td : Option (List F)) (dim : DDim)
    (s : CLImage F) : (s.stage td dim).c_block_ = s.c_block_ := by
  unfold CLImage.stage; cases td <;> rfl

/-! ## The properties C11 to C20 -/

/-- C11 (materialize requires staged data). `InitCLImage(context)` throws
" need call SetTensorData first" exactly when no staged buffer is present
(`tensor_data_` is null), and then the object is left as it was; in particular this is
what happens on a fresh object. -/
theorem materialize_requires_staged_data {F Hf : Type} [Zero F] (float2half : F → Hf)
    (rt : Runtime Hf) (s : CLImage F) :
    ((∃ s', s.InitCLImage float2half rt = .thrown .need_call_SetTensorData_first s') ↔
        s.tensor_data_ = none) ∧
      (s.tensor_data_ = none →
        s.InitCLImage float2half rt = .thrown .need_call_SetTensorData_first s) ∧
      (s.IsFresh → s.InitCLImage float2half rt = .thrown .need_call_SetTensorData_first s) := by
  have hnone : s.tensor_data_ = none →
      s.InitCLImage float2half rt = .thrown .need_call_SetTensorData_first s := by
    intro h
    unfold CLImage.InitCLImage
    rw [h]
  refine ⟨⟨?_, fun h => ⟨s, hnone h⟩⟩, hnone, fun h => hnone h.2⟩
  rintro ⟨s', h⟩
  cases hd : s.tensor_data_ with
  | none => rfl
  | some buf =>
    rw [InitCLImage_staged float2half rt s buf hd] at h
    cases hp : pack float2half rt.new_half_t (some buf) (readExtents rt s.tensor_dims_) with
    | error flt => rw [hp] at h; cases h
    | ok img =>
      rw [hp] at h
      simp only at h
      split at h <;> cases h

/-- C11 on the object without staged data, next to an object with staged data, on which
the call returns. -/
theorem materialize_requires_staged_data_witness :
    emptyImage.InitCLImage id rtAccept = .thrown .need_call_SetTensorData_first emptyImage ∧
      (stagedImage [1, 5, 2, 3] (List.range 30)).InitCLImage id rtAccept
        = .ok materialized1523 :=
  ⟨(materialize_requires_staged_data id rtAccept emptyImage).2.1 rfl, rfl⟩

/-- C12 (`InitEmptyImage` rejects staged data). After a `SetTensorData(buffer, shape)`
that returned, `InitEmptyImage(context, anyShape)` throws
" empty image tensor data shouldn't have value" and leaves the object as it was: the
staged buffer, its shape and `initialized_` are unchanged. -/
theorem InitEmptyImage_rejects_staged_data {F Hf : Type} [Zero F] (float2half : F → Hf)
    (mergeBytes : Nat → F → F → F) (new_float : Nat → F) (tensorData : List F)
    (dim anyShape : DDim) (rt : Runtime Hf) (s s' : CLImage F)
    (hset : s.SetTensorData mergeBytes new_float tensorData dim = .ok s') :
    s'.InitEmptyImage float2half rt anyShape
      = .thrown .empty_image_tensor_data_shouldnt_have_value s' := by
  unfold CLImage.SetTensorData at hset
  simp only at hset
  split at hset
  · cases hset
  · cases hset
    rfl

/-- Witness of C12: `1, 2, 3, 4` staged with the shape `(4)`, then
`InitEmptyImage(context, (1, 5, 2, 3))`. -/
theorem InitEmptyImage_rejects_staged_data_witness :
    emptyImage.SetTensorData (fun _ s _ => s) (fun _ => 9) [1, 2, 3, 4] [4]
        = .ok (stagedImage [4] [1, 9, 9, 9]) ∧
      (stagedImage [4] [1, 9, 9, 9]).InitEmptyImage id rtAccept [1, 5, 2, 3]
        = .thrown .empty_image_tensor_data_shouldnt_have_value (stagedImage [4] [1, 9, 9, 9]) :=
  ⟨rfl, InitEmptyImage_rejects_staged_data id (fun _ s _ => s) (fun _ => 9) [1, 2, 3, 4] [4]
    [1, 5, 2, 3] rtAccept emptyImage (stagedImage [4] [1, 9, 9, 9]) rfl⟩

/-- C13 (unsupported rank is an error), evaluated on the rank-2 shape `(2, 3)` with six
staged values. Neither branch of the rank test assigns `N, C, H, W`, and nothing
rejects the shape: with locals that happen to hold `1` the call returns, the object is
initialised and `ImageDims()` is `(1, 1)`; with locals holding `0` the image dimensions
written are `(0, 0)`; `InitEmptyImage(context, (2, 3))` returns as well. No error that
names the rank is raised. -/
theorem rank2_shape_is_materialized :
    (stagedImage [2, 3] [10, 11, 12, 13, 14, 15]).InitCLImage id rtLocalsOne
        = .ok materialized23 ∧
      materialized23.ImageDims = [1, 1] ∧
      (stagedImage [2, 3] [10, 11, 12, 13, 14, 15]).InitCLImage id rtRefuse
        = .thrown .create_image_2d_error
          { stagedImage [2, 3] [10, 11, 12, 13, 14, 15] with image_dims_ := [0, 0] } ∧
      emptyImage.InitEmptyImage id rtLocalsOne [2, 3]
        = .ok { materialized23 with tensor_data_ := some (List.replicate 6 0) } :=
  ⟨rfl, rfl, rfl, rfl⟩

/-- C14 (channel block count), evaluated on the shape `(1, 5, 2, 3)`. No member function
assigns `c_block_`: after materialisation `CBlock()` is what it was before, here `0`,
and not `⌈5 / 4⌉ = 2`; `ImageWidth()` is `6` while
`WidthOfOneBlock() * CBlock()` is `0`. -/
theorem CBlock_is_never_assigned :
    (stagedImage [1, 5, 2, 3] (List.range 30)).InitCLImage id rtAccept
        = .ok materialized1523 ∧
      (stagedImage [1, 5, 2, 3] (List.range 30)).CBlock = 0 ∧
      materialized1523.CBlock = 0 ∧ ⌈((5 : Nat) : ℚ) / 4⌉₊ = 2 ∧
      materialized1523.ImageWidth = 6 ∧ materialized1523.WidthOfOneBlock = 3 ∧
      materialized1523.WidthOfOneBlock * materialized1523.CBlock = 0 :=
  ⟨rfl, rfl, rfl, by rw [ceil_div_four], rfl, rfl, rfl⟩

/-- C15 (`InitEmptyImage` uploads zeros), evaluated on the shape `(1, 5, 2, 3)` and an
object without staged data. The packing is skipped because the parameter `tensor_data`
is null, so `imageData` stays null and `clCreateImage2D` is called with a null
`host_ptr`, not with an array of zeros: a device that refuses exactly the null
`host_ptr` makes the call throw " create image 2d error ". On a device that accepts,
the object is initialised, and `tensor_data_` still holds the thirty zeros allocated
in lines 125-133. -/
theorem InitEmptyImage_passes_null_host_ptr :
    emptyImage.InitEmptyImage id rtConforming [1, 5, 2, 3]
        = .thrown .create_image_2d_error emptyRefused1523 ∧
      emptyImage.InitEmptyImage id rtAccept [1, 5, 2, 3] = .ok emptyMaterialized1523 ∧
      pack id rtAccept.new_half_t (none : Option (List Nat)) (readExtents rtAccept [1, 5, 2, 3])
        = .ok none ∧
      emptyMaterialized1523.tensor_data_ = some (List.replicate 30 0) :=
  ⟨rfl, rfl, rfl, rfl⟩

/-- C16 (`Resize` touches only the original shape). In every state and for every shape
`d`, `Resize(d)` returns; afterwards `dims()` is `d`, `numel()` is the product of `d`,
and the staged buffer, `initialized_`, the device handle, `ImageWidth()`,
`ImageHeight()`, `ImageDims()`, `WidthOfOneBlock()`, `HeightOfOneBlock()`, `CBlock()`
and the result of `data<T>()` are what they were. -/
theorem Resize_touches_only_dims {F : Type} (s : CLImage F) (d : DDim) :
    (s.Resize d).dims = d ∧ (s.Resize d).numel = product d ∧
      (s.Resize d).tensor_data_ = s.tensor_data_ ∧
      (s.Resize d).initialized_ = s.initialized_ ∧
      (s.Resize d).GetCLImage = s.GetCLImage ∧
      (s.Resize d).ImageWidth = s.ImageWidth ∧ (s.Resize d).ImageHeight = s.ImageHeight ∧
      (s.Resize d).ImageDims = s.ImageDims ∧
      (s.Resize d).WidthOfOneBlock = s.WidthOfOneBlock ∧
      (s.Resize d).HeightOfOneBlock = s.HeightOfOneBlock ∧
      (s.Resize d).CBlock = s.CBlock ∧
      (s.Resize d).data = s.data :=
  ⟨rfl, rfl, rfl, rfl, rfl, rfl, rfl, rfl, rfl, rfl, rfl, rfl⟩

/-- C17, as stated, fails: `SetTensorData` has no test on `initialized_`. Staging
`1, 2, 3, 4`, materialising and staging again gives an object that holds a staged buffer
while `initialized_` is true. -/
theorem restaging_after_materialization :
    emptyImage.IsFresh ∧
      emptyImage.SetTensorData (fun _ s _ => s) (fun _ => 9) [1, 2, 3, 4] [4]
        = .ok (stagedImage [4] [1, 9, 9, 9]) ∧
      (stagedImage [4] [1, 9, 9, 9]).InitCLImage id rtAccept = .ok materialized4 ∧
      materialized4.SetTensorData (fun _ s _ => s) (fun _ => 9) [5, 6, 7, 8] [4]
        = .ok { materialized4 with tensor_data_ := some [5, 9, 9, 9] } ∧
      ({ materialized4 with tensor_data_ := some [5, 9, 9, 9] } : CLImage Nat).initialized_
        = true :=
  ⟨⟨rfl, rfl⟩, rfl, rfl, rfl, rfl⟩

/-- C17, amended (staged buffer only while not initialised). In every state reached from
a fresh object by any sequence of `SetTensorData` calls made while the object is not
initialised, `InitCLImage(context)` calls (returning or throwing) and `Resize` calls, a
staged buffer is held only if `initialized_` is false; and after an
`InitCLImage(context)` that returns no staged buffer is held and `initialized_` is
true. -/
theorem staged_buffer_only_while_not_initialized {F Hf : Type} [Zero F]
    (float2half : F → Hf) (s : CLImage F) (hreach : ReachableByStaging float2half s) :
    (∀ buf, s.tensor_data_ = some buf → s.initialized_ = false) ∧
      ∀ rt s', s.InitCLImage float2half rt = .ok s' →
        s'.tensor_data_ = none ∧ s'.initialized_ = true := by
  constructor
  · induction hreach with
    | fresh s hs => intro buf _; exact hs.1
    | setTensorData s s' mb nf td dim _ hinit hset _ =>
      intro buf _
      obtain ⟨_, rfl⟩ := SetTensorData_ok_inv mb nf td dim s s' hset
      exact hinit
    | initCLImage s s' rt _ hok _ =>
      intro buf hb
      obtain ⟨b, s1, _, _, rfl⟩ := InitCLImage_ok_inv float2half rt s s' hok
      cases hb
    | initCLImageThrown s s' rt e _ hthrown ih =>
      intro buf hb
      rcases InitCLImage_thrown_inv float2half rt s s' e hthrown with ⟨_, rfl⟩ | ⟨b, m, hd, rfl⟩
      · exact ih buf hb
      · show ((s.stage (some b) s.tensor_dims_).layout rt).initialized_ = false
        rw [layout_initialized, stage_initialized]
        exact ih b hd
    | resize s d _ ih => intro buf hb; exact ih buf hb
  · intro rt s' hok
    obtain ⟨b, s1, _, _, rfl⟩ := InitCLImage_ok_inv float2half rt s s' hok
    exact ⟨rfl, rfl⟩

/-- Witness of the amended C17: the object after `1, 2, 3, 4` was staged on a fresh
object. -/
theorem staged_buffer_only_while_not_initialized_witness :
    (∀ buf, (stagedImage [4] [1, 9, 9, 9]).tensor_data_ = some buf →
        (stagedImage [4] [1, 9, 9, 9]).initialized_ = false) ∧
      ∀ rt s', (stagedImage [4] [1, 9, 9, 9]).InitCLImage id rt = .ok s' →
        s'.tensor_data_ = none ∧ s'.initialized_ = true :=
  staged_buffer_only_while_not_initialized id (stagedImage [4] [1, 9, 9, 9])
    (.setTensorData emptyImage _ (fun _ s _ => s) (fun _ => 9) [1, 2, 3, 4] [4]
      (.fresh emptyImage ⟨rfl, rfl⟩) rfl rfl)

/-- C18, as stated, fails: `Resize` replaces the shape and leaves the staged buffer.
After staging four floats with the shape `(4)` and `Resize((8))` the buffer has four
cells while `numel()` is `8`, and `InitCLImage(context)` reads past the end of the
buffer. -/
theorem resize_breaks_buffer_length :
    emptyImage.IsFresh ∧
      emptyImage.SetTensorData (fun _ s _ => s) (fun _ => 9) [1, 2, 3, 4] [4]
        = .ok (stagedImage [4] [1, 9, 9, 9]) ∧
      (stagedImage [4] [1, 9, 9, 9]).Resize [8] = stagedImage [8] [1, 9, 9, 9] ∧
      (stagedImage [8] [1, 9, 9, 9]).tensor_data_ = some [1, 9, 9, 9] ∧
      ([1, 9, 9, 9] : List Nat).length = 4 ∧ (stagedImage [8] [1, 9, 9, 9]).numel = 8 ∧
      (stagedImage [8] [1, 9, 9, 9]).InitCLImage id rtAccept = .fault .read_past_end :=
  ⟨⟨rfl, rfl⟩, rfl, rfl, rfl, rfl, rfl, rfl⟩

/-- C18, amended (shape matches staged buffer). In every state reached from a fresh
object by any sequence of `SetTensorData`, `InitCLImage(context)` and `InitEmptyImage`
calls with shapes whose element count is a non-negative `int`, and `Resize` calls made
while no buffer is held, a staged buffer that is present has as many cells as the
product of `dims()`; hence for a shape of rank 4 or 1 with positive sizes a following
`InitCLImage(context)` never reads outside the staged buffer (and never fails its
assertion). -/
theorem staged_buffer_matches_dims {F Hf : Type} [Zero F] (float2half : F → Hf)
    (s : CLImage F) (hreach : ReachableWithoutReshaping float2half s) :
    (∀ buf, s.tensor_data_ = some buf → (buf.length : Int) = product s.dims) ∧
      ∀ (buf : List F) (N C H W : Nat), s.tensor_data_ = some buf →
        1 ≤ N → 1 ≤ C → 1 ≤ H → 1 ≤ W → 4 * (N * C * H * W) < 2 ^ 64 →
        (s.dims = [(N : Int), (C : Int), (H : Int), (W : Int)] ∨
          (N = 1 ∧ H = 1 ∧ W = 1 ∧ s.dims = [(C : Int)])) →
        ∀ rt flt, s.InitCLImage float2half rt ≠ .fault flt := by
  have hinv : ∀ buf, s.tensor_data_ = some buf → (buf.length : Int) = product s.dims := by
    induction hreach with
    | fresh s hs => intro buf hb; rw [hs.2] at hb; cases hb
    | setTensorData s s' mb nf td dim _ h0 h1 hset _ =>
      intro buf hb
      obtain ⟨_, rfl⟩ := SetTensorData_ok_inv mb nf td dim s s' hset
      cases hb
      show (List.length _ : Int) = product dim
      rw [memcpy_length, List.length_map, List.length_range, toInt_of_range _ h0 h1]
      omega
    | initCLImage s s' rt _ hok _ =>
      intro buf hb
      obtain ⟨b, s1, _, _, rfl⟩ := InitCLImage_ok_inv float2half rt s s' hok
      cases hb
    | initCLImageThrown s s' rt e _ hthrown ih =>
      intro buf hb
      rcases InitCLImage_thrown_inv float2half rt s s' e hthrown with ⟨_, rfl⟩ | ⟨b, m, hd, rfl⟩
      · exact ih buf hb
      · have h1 : ((s.stage (some b) s.tensor_dims_).layout rt).tensor_data_ = some buf := hb
        rw [layout_tensor_data, stage_some_tensor_data] at h1
        cases h1
        show _ = product ((s.stage (some buf) s.tensor_dims_).layout rt).tensor_dims_
        rw [layout_tensor_dims, stage_tensor_dims]
        exact ih buf hd
    | initEmptyImage s s' rt dim _ h0 h1 hok _ =>
      intro buf hb
      obtain ⟨s1, _, hp, rfl⟩ := InitEmptyImage_ok_inv float2half rt dim s s' hok
      obtain ⟨m, rfl⟩ := InitCLImagePrivate_state float2half rt none dim s s1 (Or.inl hp)
      have h2 : ((s.stage none dim).layout rt).tensor_data_ = some buf := hb
      rw [layout_tensor_data] at h2
      have h3 : (s.stage none dim).tensor_data_
          = some (List.replicate (dim.foldl (fun acc d => toInt (acc * d)) 1).toNat 0) := rfl
      rw [h3, numel_int dim h0 h1] at h2
      cases h2
      show _ = product ((s.stage none dim).layout rt).tensor_dims_
      rw [layout_tensor_dims, stage_tensor_dims, List.length_replicate]
      omega
    | initEmptyImageThrown s s' rt dim e _ h0 h1 hthrown ih =>
      intro buf hb
      rcases InitEmptyImage_thrown_inv float2half rt dim s s' e hthrown with
        ⟨_, rfl⟩ | ⟨_, m, rfl⟩
      · exact ih buf hb
      · have h2 : ((s.stage none dim).layout rt).tensor_data_ = some buf := hb
        rw [layout_tensor_data] at h2
        have h3 : (s.stage none dim).tensor_data_
            = some (List.replicate (dim.foldl (fun acc d => toInt (acc * d)) 1).toNat 0) := rfl
        rw [h3, numel_int dim h0 h1] at h2
        cases h2
        show _ = product ((s.stage none dim).layout rt).tensor_dims_
        rw [layout_tensor_dims, stage_tensor_dims, List.length_replicate]
        omega
    | resize s d _ hnone _ =>
      intro buf hb
      have h2 : s.tensor_data_ = some buf := hb
      rw [hnone] at h2
      cases h2
  refine ⟨hinv, ?_⟩
  intro buf N C H W hb hN hC hH hW hfit hdim rt flt
  obtain ⟨b1, b2, b3, b4, b5, b6, b7⟩ := fits_bounds N C H W hN hC hH hW hfit
  have he := readExtents_valid rt N C H W s.tensor_dims_ (by omega) (by omega) (by omega)
    (by omega) hdim
  have hlen : buf.length = N * C * H * W := by
    have h := hinv buf hb
    rcases hdim with hd | ⟨rfl, rfl, rfl, hd⟩
    · rw [hd] at h
      simp only [product, List.foldl_cons, List.foldl_nil, one_mul] at h
      exact_mod_cast h
    · rw [hd] at h
      simp only [product, List.foldl_cons, List.foldl_nil, one_mul] at h
      simp only [Nat.one_mul, Nat.mul_one]
      exact_mod_cast h
  obtain ⟨st, r1, _, _⟩ := packLoop_valid float2half rt.new_half_t buf N C H W hN hC hH hW
    hfit hlen
  have hp : pack float2half rt.new_half_t (some buf) (readExtents rt s.tensor_dims_)
      = .ok (some st.imageData) := by
    rw [he]; unfold pack; simp only [r1]
  rw [InitCLImage_staged float2half rt s buf hb, hp]
  simp only
  split <;> simp

/-- Witness of the amended C18: the object after `1, 2, 3, 4` was staged with the shape
`(4)` on a fresh object. -/
theorem staged_buffer_matches_dims_witness :
    (∀ buf, (stagedImage [4] [1, 9, 9, 9]).tensor_data_ = some buf →
        (buf.length : Int) = product (stagedImage [4] [1, 9, 9, 9]).dims) ∧
      ∀ flt, (stagedImage [4] [1, 9, 9, 9]).InitCLImage id rtAccept ≠ .fault flt :=
  ⟨(staged_buffer_matches_dims id (stagedImage [4] [1, 9, 9, 9])
      (.setTensorData emptyImage _ (fun _ s _ => s) (fun _ => 9) [1, 2, 3, 4] [4]
        (.fresh emptyImage ⟨rfl, rfl⟩) (by decide) (by decide) rfl)).1,
    (staged_buffer_matches_dims id (stagedImage [4] [1, 9, 9, 9])
      (.setTensorData emptyImage _ (fun _ s _ => s) (fun _ => 9) [1, 2, 3, 4] [4]
        (.fresh emptyImage ⟨rfl, rfl⟩) (by decide) (by decide) rfl)).2
      [1, 9, 9, 9] 1 4 1 1 rfl (by decide) (by decide) (by decide) (by decide) (by decide)
      (Or.inr ⟨rfl, rfl, rfl, rfl⟩) rtAccept⟩

/-- C19 (running offsets have a closed form). For all sizes `N, C, H, W ≥ 0` with
`4 * N * C * H * W < 2 ^ 64` and a source of `N * C * H * W` floats: at the start of
every iteration `(n, c, h, w)` the loop is running (no fault so far),
`i0 = n * H * width`, `i1 = (n * H + h) * width`,
`i2 = ((n * H + h) * width + w) * 4 + c % 4`, the pointer `p` is at offset
`((n * C + c) * H + h) * W + w`, and the iteration stores the source element at that
offset to `imageData[i2]` and advances `i2` by 4 and `p` by 1; the whole loop ends with
`p` at offset `N * C * H * W`, so every source element is read once, in row-major NCHW
order. -/
theorem running_offsets_closed_form {F Hf : Type} (float2half : F → Hf)
    (new_half_t : Nat → Hf) (src : List F) (N C H W : Nat)
    (hfit : 4 * (N * C * H * W) < 2 ^ 64) (hlen : src.length = N * C * H * W) :
    (∀ n c h w, n < N → c < C → h < H → w < W →
      ∃ st x, packStateAt float2half new_half_t src ⟨N, C, H, W⟩ n c h w = .ok st ∧
        st.i0 = n * H * Extents.width ⟨N, C, H, W⟩ ∧
        st.i1 = (n * H + h) * Extents.width ⟨N, C, H, W⟩ ∧
        st.i2 = ((n * H + h) * Extents.width ⟨N, C, H, W⟩ + w) * 4 + c % 4 ∧
        st.p = ((n * C + c) * H + h) * W + w ∧
        src[st.p]? = some x ∧
        packW float2half src (Extents.width ⟨N, C, H, W⟩) (Extents.height ⟨N, C, H, W⟩) st
          = .ok { st with
              imageData := st.imageData.set st.i2 (float2half x)
              i2 := st.i2 + 4
              p := st.p + 1 }) ∧
    ∃ st, packLoop float2half new_half_t src ⟨N, C, H, W⟩ = .ok st ∧ st.p = N * C * H * W := by
  obtain ⟨hB, hX, hW⟩ := pack_facts N C H W hfit
  have hsz : N * (C * (H * W)) = N * C * H * W := by ring
  constructor
  · intro n c h w hn hc hh hw
    generalize hwd : Extents.width ⟨N, C, H, W⟩ = wd at *
    have hW' : W ≤ wd := hW (by omega) (by omega) (by omega)
    -- the `n` loop
    obtain ⟨sn, n1, _, n3, n4⟩ := packN_run float2half new_half_t src ⟨N, C, H, W⟩ n
      (by show n ≤ N; omega) (by rw [hwd]; exact hB) (by rw [hwd]; exact hX)
      (fun _ _ _ => by rw [hwd]; exact hW') (by show N * (C * (H * W)) ≤ _; omega)
    rw [hwd] at n4
    have n3' : sn.p = n * (C * (H * W)) := n3
    have n4' : sn.i0 = n * (wd * H) := n4
    clear n3 n4
    have a1 : (n + 1) * (wd * H) = n * (wd * H) + wd * H := by ring
    have a2 : (n + 1) * (C * (H * W)) = n * (C * (H * W)) + C * (H * W) := by ring
    have a3 : wd * (H * N) = N * (wd * H) := by ring
    have a4 : H * wd = wd * H := by ring
    have k1 : (n + 1) * (wd * H) ≤ N * (wd * H) := Nat.mul_le_mul_right _ (by omega)
    have k2 : (n + 1) * (C * (H * W)) ≤ N * (C * (H * W)) := Nat.mul_le_mul_right _ (by omega)
    -- the `c` loop
    obtain ⟨sc, c1, _, c3, c4⟩ := packC_run float2half src ⟨N, C, H, W⟩ (wd * (H * N)) c sn
      (by show c ≤ C; omega) (by rw [hwd]; exact hB) hX (fun _ => by rw [hwd]; exact hW')
      (by rw [hwd]; show sn.i0 + H * wd ≤ _; omega)
      (by show sn.p + C * (H * W) ≤ _; omega)
    have a5 : (c + 1) * (H * W) = c * (H * W) + H * W := by ring
    have k3 : (c + 1) * (H * W) ≤ C * (H * W) := Nat.mul_le_mul_right _ (by omega)
    -- the `h` loop
    obtain ⟨sh, h1, _, h3, h4, h5⟩ := packH_run float2half src ⟨N, C, H, W⟩ c (wd * (H * N)) h
      { sc with i1 := sc.i0 } (by show h ≤ H; omega) (by rw [hwd]; exact hB) hX
      (fun _ => by rw [hwd]; exact hW')
      (by rw [hwd]; show sc.i0 + H * wd ≤ _; omega)
      (by show sc.p + H * W ≤ _; have c3' : sc.p = sn.p + c * (H * W) := c3; omega)
    rw [hwd] at h4
    have h3' : sh.p = sc.p + h * W := h3
    have h4' : sh.i1 = sc.i0 + h * wd := h4
    have h5' : sh.i0 = sc.i0 := h5
    have c3' : sc.p = sn.p + c * (H * W) := c3
    have c4' : sc.i0 = sn.i0 := c4
    have a6 : (h + 1) * wd = h * wd + wd := by ring
    have a7 : (h + 1) * W = h * W + W := by ring
    have k4 : (h + 1) * wd ≤ H * wd := Nat.mul_le_mul_right _ (by omega)
    have k5 : (h + 1) * W ≤ H * W := Nat.mul_le_mul_right _ (by omega)
    have hc4 : c % 4 < 4 := Nat.mod_lt _ (by omega)
    have hi2 : size_t (size_t (sh.i1 * 4) + c % 4) = 4 * (n * (wd * H) + h * wd) + c % 4 := by
      simp only [size_t, h4', c4', n4']; omega
    -- the `w` loop
    obtain ⟨sw, w1, _, w3, w4, w5, w6⟩ := packW_run float2half src wd
      (Extents.height ⟨N, C, H, W⟩) w { sh with i2 := size_t (size_t (sh.i1 * 4) + c % 4) }
      (by intro j hj; show size_t (size_t (sh.i1 * 4) + c % 4) + 4 * j < _; rw [hB, hi2]; omega)
      (by show size_t (size_t (sh.i1 * 4) + c % 4) + 4 * w < _; rw [hi2]; omega)
      (by show sh.p + w ≤ _; omega)
    have w3' : sw.p = sh.p + w := w3
    have w4' : sw.i2 = size_t (size_t (sh.i1 * 4) + c % 4) + 4 * w := w4
    have w5' : sw.i0 = sh.i0 := w5
    have w6' : sw.i1 = sh.i1 := w6
    have hp : sw.p = ((n * C + c) * H + h) * W + w := by
      rw [w3', h3', c3', n3']; ring
    have hlt : sw.p < src.length := by
      rw [w3', h3', c3', n3']; omega
    refine ⟨sw, src[sw.p], ?_, ?_, ?_, ?_, hp, List.getElem?_eq_getElem hlt, ?_⟩
    · unfold packStateAt
      simp only [n1, c1, h1]
      rw [hwd]
      exact w1
    · rw [w5', h5', c4', n4']; ring
    · rw [w6', h4', c4', n4']; ring
    · rw [w4', hi2]; ring
    · unfold packW
      have hi2' : sw.i2 = 4 * (n * (wd * H) + h * wd) + c % 4 + 4 * w := by rw [w4', hi2]
      rw [if_neg (by rw [hB, hi2']; omega), List.getElem?_eq_getElem hlt]
      have : size_t (sw.i2 + 4) = sw.i2 + 4 := by
        simp only [size_t, hi2']; omega
      simp only [this]
  · obtain ⟨st, r1, _, r3, _⟩ := packN_run float2half new_half_t src ⟨N, C, H, W⟩ N
      (Nat.le_refl _) hB hX hW (by show N * (C * (H * W)) ≤ _; omega)
    exact ⟨st, r1, by rw [r3]; exact hsz⟩

/-- Witness of C19: the last iteration `(0, 4, 1, 2)` of the shape `(1, 5, 2, 3)`. -/
theorem running_offsets_closed_form_witness :
    (∃ st x, packStateAt id (fun _ => 777) (List.range 30) ⟨1, 5, 2, 3⟩ 0 4 1 2 = .ok st ∧
        st.i0 = 0 * 2 * Extents.width ⟨1, 5, 2, 3⟩ ∧
        st.i1 = (0 * 2 + 1) * Extents.width ⟨1, 5, 2, 3⟩ ∧
        st.i2 = ((0 * 2 + 1) * Extents.width ⟨1, 5, 2, 3⟩ + 2) * 4 + 4 % 4 ∧
        st.p = ((0 * 5 + 4) * 2 + 1) * 3 + 2 ∧
        (List.range 30)[st.p]? = some x ∧
        packW id (List.range 30) (Extents.width ⟨1, 5, 2, 3⟩) (Extents.height ⟨1, 5, 2, 3⟩) st
          = .ok { st with
              imageData := st.imageData.set st.i2 (id x)
              i2 := st.i2 + 4
              p := st.p + 1 }) ∧
      ∃ st, packLoop id (fun _ => 777) (List.range 30) ⟨1, 5, 2, 3⟩ = .ok st ∧
        st.p = 1 * 5 * 2 * 3 :=
  ⟨(running_offsets_closed_form id (fun _ => 777) (List.range 30) 1 5 2 3 (by decide) rfl).1
      0 4 1 2 (by decide) (by decide) (by decide) (by decide),
    (running_offsets_closed_form id (fun _ => 777) (List.range 30) 1 5 2 3 (by decide) rfl).2⟩

/-- C20 (single-block shapes pack injectively). For a rank-4 shape with
`N, H, W ≥ 1` and `1 ≤ C ≤ 4`, or a rank-1 shape with `1 ≤ C ≤ 4`: the image is `W`
pixels wide, after packing the cell `((n * H + h) * pixelWidth + w) * 4 + c` holds
`float2half` of source element `(n, c, h, w)` for every `n < N, c < C, h < H, w < W`, and
two elements with the same destination index are the same element: nothing stored is
overwritten and every source element is found in the packed array. -/
theorem single_block_pack_injective {F Hf : Type} (float2half : F → Hf) (rt : Runtime Hf)
    (N C H W : Nat) (hN : 1 ≤ N) (hC : 1 ≤ C) (hC4 : C ≤ 4) (hH : 1 ≤ H) (hW : 1 ≤ W)
    (hfit : 4 * (N * C * H * W) < 2 ^ 64) (dim : DDim)
    (hdim : dim = [(N : Int), (C : Int), (H : Int), (W : Int)] ∨
      (N = 1 ∧ H = 1 ∧ W = 1 ∧ dim = [(C : Int)]))
    (src : List F) (hlen : src.length = N * C * H * W) :
    (readExtents rt dim).width = W ∧
    (∃ imageData,
      pack float2half rt.new_half_t (some src) (readExtents rt dim) = .ok (some imageData) ∧
      ∀ n c h w, n < N → c < C → h < H → w < W →
        ∃ x, src[((n * C + c) * H + h) * W + w]? = some x ∧
          imageData[((n * H + h) * (readExtents rt dim).width + w) * 4 + c]?
            = some (float2half x)) ∧
    ∀ n c h w n' c' h' w', c < C → h < H → w < W → c' < C → h' < H → w' < W →
      ((n * H + h) * (readExtents rt dim).width + w) * 4 + c
        = ((n' * H + h') * (readExtents rt dim).width + w') * 4 + c' →
      n = n' ∧ c = c' ∧ h = h' ∧ w = w' := by
  obtain ⟨b1, b2, b3, b4, b5, b6, b7⟩ := fits_bounds N C H W hN hC hH hW hfit
  have he := readExtents_valid rt N C H W dim (by omega) (by omega) (by omega) (by omega) hdim
  have hwd : Extents.width ⟨N, C, H, W⟩ = W := by
    rw [width_eq _ b5 b2]
    show W * ((C + 3) / 4) = W
    have : (C + 3) / 4 = 1 := by omega
    rw [this, Nat.mul_one]
  have hwd' : W * ((C + 3) / 4) = W := by
    have : (C + 3) / 4 = 1 := by omega
    rw [this, Nat.mul_one]
  obtain ⟨st, r1, r2, _⟩ := packLoop_valid float2half rt.new_half_t src N C H W hN hC hH hW
    hfit hlen
  rw [hwd'] at r2
  rw [he, hwd]
  have hinj : ∀ n c h w n' c' h' w', c < C → h < H → w < W → c' < C → h' < H → w' < W →
      ((n * H + h) * W + w) * 4 + c = ((n' * H + h') * W + w') * 4 + c' →
      n = n' ∧ c = c' ∧ h = h' ∧ w = w' := by
    intro n c h w n' c' h' w' hc hh hw hc' hh' hw' heq
    exact destination_inj W H W (Nat.le_refl _) n c h w n' c' h' w' (by omega) hh hw
      (by omega) hh' hw' heq
  refine ⟨rfl, ⟨st.imageData, by unfold pack; simp only [r1], ?_⟩, hinj⟩
  intro n c h w hn hc hh hw
  have k1 : (n + 1) * (C * (H * W)) ≤ N * (C * (H * W)) := Nat.mul_le_mul_right _ (by omega)
  have k2 : (c + 1) * (H * W) ≤ C * (H * W) := Nat.mul_le_mul_right _ (by omega)
  have k3 : (h + 1) * W ≤ H * W := Nat.mul_le_mul_right _ (by omega)
  have a1 : (n + 1) * (C * (H * W)) = n * (C * (H * W)) + C * (H * W) := by ring
  have a2 : (c + 1) * (H * W) = c * (H * W) + H * W := by ring
  have a3 : (h + 1) * W = h * W + W := by ring
  have a4 : N * (C * (H * W)) = N * C * H * W := by ring
  have hq : ((n * C + c) * H + h) * W + w = n * (C * (H * W)) + c * (H * W) + h * W + w := by
    ring
  have hlt : ((n * C + c) * H + h) * W + w < src.length := by rw [hq]; omega
  have hi : ((n * H + h) * W + w) * 4 + c = 4 * (n * (W * H) + h * W) + c % 4 + 4 * w := by
    rw [Nat.mod_eq_of_lt (by omega : c < 4)]; ring
  have k4 : (n + 1) * (W * H) ≤ N * (W * H) := Nat.mul_le_mul_right _ (by omega)
  have a5 : (n + 1) * (W * H) = n * (W * H) + W * H := by ring
  have a6 : W * (H * N) = N * (W * H) := by ring
  have a7 : W * H = H * W := by ring
  refine ⟨src[((n * C + c) * H + h) * W + w], List.getElem?_eq_getElem hlt, ?_⟩
  rw [r2]
  apply applyWrites_getElem?_of_unique float2half src _ _ (((n * C + c) * H + h) * W + w) _
    (List.getElem?_eq_getElem hlt)
  · rw [List.length_map, List.length_range, hi]
    have : c % 4 < 4 := Nat.mod_lt _ (by omega)
    omega
  · rw [mem_nTrace]
    exact ⟨n, hn, c, hc, h, hh, w, hw, hi, hq⟩
  · rintro ⟨i', q'⟩ hmem hidx
    obtain ⟨n', hn', c', hc', h', hh', w', hw', hi', hq'⟩ := (mem_nTrace _ _ _ _ _ _ _).mp hmem
    have hidx' : i' = ((n * H + h) * W + w) * 4 + c := hidx
    have hi'' : i' = ((n' * H + h') * W + w') * 4 + c' := by
      rw [hi', Nat.mod_eq_of_lt (by omega : c' < 4)]; ring
    obtain ⟨e1, e2, e3, e4⟩ := hinj n' c' h' w' n c h w hc' hh' hw' hc hh hw
      (by rw [← hi'', hidx'])
    show q' = _
    rw [hq', hq, e1, e2, e3, e4]

/-- Witness of C20 at the shape `(2, 3, 2, 2)`. -/
theorem single_block_pack_injective_witness :
    (readExtents rtAccept [2, 3, 2, 2]).width = 2 ∧
    (∃ imageData,
      pack id rtAccept.new_half_t (some (List.range 24)) (readExtents rtAccept [2, 3, 2, 2])
        = .ok (some imageData) ∧
      ∀ n c h w, n < 2 → c < 3 → h < 2 → w < 2 →
        ∃ x, (List.range 24)[((n * 3 + c) * 2 + h) * 2 + w]? = some x ∧
          imageData[((n * 2 + h) * (readExtents rtAccept [2, 3, 2, 2]).width + w) * 4 + c]?
            = some (id x)) ∧
    ∀ n c h w n' c' h' w', c < 3 → h < 2 → w < 2 → c' < 3 → h' < 2 → w' < 2 →
      ((n * 2 + h) * (readExtents rtAccept [2, 3, 2, 2]).width + w) * 4 + c
        = ((n' * 2 + h') * (readExtents rtAccept [2, 3, 2, 2]).width + w') * 4 + c' →
      n = n' ∧ c = c' ∧ h = h' ∧ w = w' :=
  single_block_pack_injective id rtAccept 2 3 2 2 (by decide) (by decide) (by decide)
    (by decide) (by decide) (by decide) [2, 3, 2, 2] (Or.inl rfl) (List.range 24) rfl

/-! ## Further properties -/

/-- Rank-1 layout. For a rank-1 shape `(C)` with `C ≥ 1` (and `4 * C < 2 ^ 64`), after a
successful `InitCLImage(context)` on an object holding that shape, or a successful
`InitEmptyImage(context, shape)`: `ImageWidth() = ⌈C / 4⌉`, `ImageHeight() = 1`,
`WidthOfOneBlock() = 1` and `HeightOfOneBlock() = 1`. -/
theorem rank1_layout {F Hf : Type} [Zero F] (float2half : F → Hf) (rt : Runtime Hf)
    (C : Nat) (hC : 1 ≤ C) (hfit : 4 * C < 2 ^ 64) (s s' : CLImage F)
    (hmat : (s.tensor_dims_ = [(C : Int)] ∧ s.InitCLImage float2half rt = .ok s') ∨
      s.InitEmptyImage float2half rt [(C : Int)] = .ok s') :
    s'.ImageWidth = ⌈(C : ℚ) / 4⌉₊ ∧ s'.ImageHeight = 1 ∧
      s'.WidthOfOneBlock = 1 ∧ s'.HeightOfOneBlock = 1 := by
  rw [ceil_div_four]
  have he : readExtents rt [(C : Int)] = ⟨1, C, 1, 1⟩ := readExtents_rank1 rt C (by omega)
  have hw : Extents.width ⟨1, C, 1, 1⟩ = (C + 3) / 4 := by
    rw [width_eq _ (by show 1 * C < _; omega) (by show C < _; omega)]
    show 1 * ((C + 3) / 4) = _
    omega
  have hh : Extents.height ⟨1, C, 1, 1⟩ = 1 := by simp [Extents.height, size_t]
  have key : ∀ (td : Option (List F)) (m : Nat),
      let s1 : CLImage F := { (s.stage td [(C : Int)]).layout rt with cl_image_ := m }
      s1.image_width_ = (C + 3) / 4 ∧ s1.image_height_ = 1 ∧
        s1.width_of_one_block_ = 1 ∧ s1.height_of_one_block_ = 1 := by
    intro td m
    obtain ⟨l1, l2⟩ := layout_fields rt td [(C : Int)] s
    obtain ⟨l3, l4⟩ := layout_block rt td [(C : Int)] s (Or.inr rfl)
    rw [he] at l1 l2 l3 l4
    exact ⟨l1.trans hw, l2.trans hh, l3, l4⟩
  rcases hmat with ⟨hd, h⟩ | h
  · obtain ⟨buf, s1, _, hp, rfl⟩ := InitCLImage_ok_inv float2half rt s s' h
    obtain ⟨m, rfl⟩ := InitCLImagePrivate_state float2half rt _ _ s s1 (Or.inl hp)
    rw [hd]
    exact key (some buf) m
  · obtain ⟨s1, _, hp, rfl⟩ := InitEmptyImage_ok_inv float2half rt _ s s' h
    obtain ⟨m, rfl⟩ := InitCLImagePrivate_state float2half rt _ _ s s1 (Or.inl hp)
    exact key none m

/-- The rank-1 layout at the shape `(5)`. -/
theorem rank1_layout_witness :
    (stagedImage [5] [10, 11, 12, 13, 14]).InitCLImage id rtAccept = .ok materialized5 ∧
      materialized5.ImageWidth = ⌈((5 : Nat) : ℚ) / 4⌉₊ ∧ materialized5.ImageHeight = 1 ∧
      materialized5.WidthOfOneBlock = 1 ∧ materialized5.HeightOfOneBlock = 1 :=
  ⟨rfl, rank1_layout id rtAccept 5 (by decide) (by decide) (stagedImage [5] [10, 11, 12, 13, 14])
    materialized5 (Or.inl ⟨rfl, rfl⟩)⟩

/-- What `SetTensorData(tensorData, dim)` stages. When it returns, `dims()` is `dim`,
`numel()` is the product of `dim`, `initialized_` is untouched, and `tensor_data_` is a
buffer of `numel` floats (`numel` the product as an `int`) in which every float lying
within the first `numel` bytes is the caller's and every float lying beyond them is
what the fresh `new float[numel]` held: a quarter of the tensor is copied. -/
theorem SetTensorData_staged {F : Type} (mergeBytes : Nat → F → F → F) (new_float : Nat → F)
    (tensorData : List F) (dim : DDim) (s s' : CLImage F)
    (h : s.SetTensorData mergeBytes new_float tensorData dim = .ok s') :
    s'.dims = dim ∧ s'.numel = product dim ∧ s'.initialized_ = s.initialized_ ∧
    ∃ buf, s'.tensor_data_ = some buf ∧ (buf.length : Int) = toInt (product dim) ∧
      (∀ i, 4 * (i + 1) ≤ buf.length → i < tensorData.length → buf[i]? = tensorData[i]?) ∧
      (∀ i, buf.length ≤ 4 * i → i < buf.length → buf[i]? = some (new_float i)) := by
  unfold CLImage.SetTensorData at h
  simp only at h
  split at h
  · cases h
  · rename_i hneg
    cases h
    have hlen : (memcpy mergeBytes ((List.range (toInt (product dim)).toNat).map new_float)
        tensorData (toInt (product dim)).toNat).length = (toInt (product dim)).toNat := by
      rw [memcpy_length, List.length_map, List.length_range]
    refine ⟨rfl, rfl, rfl, _, rfl, ?_, ?_, ?_⟩
    · rw [hlen]; omega
    · intro i hi hsrc
      rw [hlen] at hi
      exact memcpy_copied mergeBytes _ _ _ i hi (by simp; omega) hsrc
    · intro i hi hlt
      rw [hlen] at hi hlt
      rw [memcpy_kept mergeBytes _ _ _ i hi]
      simp [List.getElem?_map, List.getElem?_range hlt]

/-- The staging of `1, 2, 3, 4` with the shape `(4)`. -/
theorem SetTensorData_staged_witness :
    emptyImage.SetTensorData (fun _ s _ => s) (fun _ => 9) [1, 2, 3, 4] [4]
        = .ok (stagedImage [4] [1, 9, 9, 9]) ∧
      (stagedImage [4] [1, 9, 9, 9]).dims = [4] ∧
      (stagedImage [4] [1, 9, 9, 9]).numel = product [4] ∧
      (stagedImage [4] [1, 9, 9, 9]).initialized_ = emptyImage.initialized_ :=
  ⟨rfl, (SetTensorData_staged (fun _ s _ => s) (fun _ => 9) [1, 2, 3, 4] [4] emptyImage
    (stagedImage [4] [1, 9, 9, 9]) rfl).1,
   (SetTensorData_staged (fun _ s _ => s) (fun _ => 9) [1, 2, 3, 4] [4] emptyImage
    (stagedImage [4] [1, 9, 9, 9]) rfl).2.1,
   (SetTensorData_staged (fun _ s _ => s) (fun _ => 9) [1, 2, 3, 4] [4] emptyImage
    (stagedImage [4] [1, 9, 9, 9]) rfl).2.2.1⟩

/-- What a returning `InitEmptyImage(context, dim)` leaves behind: the object is
initialised and `tensor_data_` still points to the buffer of `numel` zeros that lines
125-133 allocate; nothing releases it, unlike in `InitCLImage(context)`. -/
theorem InitEmptyImage_keeps_zero_buffer {F Hf : Type} [Zero F] (float2half : F → Hf)
    (rt : Runtime Hf) (dim : DDim) (s s' : CLImage F)
    (h : s.InitEmptyImage float2half rt dim = .ok s') :
    s'.initialized_ = true ∧
      s'.tensor_data_ =
        some (List.replicate (dim.foldl (fun acc d => toInt (acc * d)) 1).toNat 0) := by
  obtain ⟨s1, _, hp, rfl⟩ := InitEmptyImage_ok_inv float2half rt dim s s' h
  obtain ⟨m, rfl⟩ := InitCLImagePrivate_state float2half rt none dim s s1 (Or.inl hp)
  refine ⟨rfl, ?_⟩
  show ((s.stage none dim).layout rt).tensor_data_ = _
  rw [layout_tensor_data]
  rfl

/-- The zero buffer left by `InitEmptyImage(context, (1, 5, 2, 3))`. -/
theorem InitEmptyImage_keeps_zero_buffer_witness :
    emptyImage.InitEmptyImage id rtAccept [1, 5, 2, 3] = .ok emptyMaterialized1523 ∧
      emptyMaterialized1523.initialized_ = true ∧
      emptyMaterialized1523.tensor_data_ =
        some (List.replicate
          (([1, 5, 2, 3] : DDim).foldl (fun acc d => toInt (acc * d)) 1).toNat 0) :=
  ⟨rfl, InitEmptyImage_keeps_zero_buffer id rtAccept [1, 5, 2, 3] emptyImage
    emptyMaterialized1523 rfl⟩

/-- No member function assigns `c_block_`: `CBlock()` is the same before and after
`SetTensorData`, `InitCLImage(context)`, `InitEmptyImage` and `Resize`. -/
theorem CBlock_unchanged {F Hf : Type} [Zero F] (float2half : F → Hf) (rt : Runtime Hf)
    (s s' : CLImage F) :
    (∀ mergeBytes new_float tensorData dim,
        s.SetTensorData mergeBytes new_float tensorData dim = .ok s' → s'.CBlock = s.CBlock) ∧
      (s.InitCLImage float2half rt = .ok s' → s'.CBlock = s.CBlock) ∧
      (∀ dim, s.InitEmptyImage float2half rt dim = .ok s' → s'.CBlock = s.CBlock) ∧
      ∀ d, (s.Resize d).CBlock = s.CBlock := by
  refine ⟨?_, ?_, ?_, fun _ => rfl⟩
  · intro mb nf td dim h
    obtain ⟨_, rfl⟩ := SetTensorData_ok_inv mb nf td dim s s' h
    rfl
  · intro h
    obtain ⟨buf, s1, _, hp, rfl⟩ := InitCLImage_ok_inv float2half rt s s' h
    obtain ⟨m, rfl⟩ := InitCLImagePrivate_state float2half rt _ _ s s1 (Or.inl hp)
    show ((s.stage (some buf) s.tensor_dims_).layout rt).c_block_ = _
    rw [layout_c_block, stage_c_block]
    rfl
  · intro dim h
    obtain ⟨s1, _, hp, rfl⟩ := InitEmptyImage_ok_inv float2half rt dim s s' h
    obtain ⟨m, rfl⟩ := InitCLImagePrivate_state float2half rt _ _ s s1 (Or.inl hp)
    show ((s.stage none dim).layout rt).c_block_ = _
    rw [layout_c_block, stage_c_block]
    rfl

/-- `CBlock()` before and after the materialisation of `(1, 5, 2, 3)`. -/
theorem CBlock_unchanged_witness :
    (stagedImage [1, 5, 2, 3] (List.range 30)).InitCLImage id rtAccept
        = .ok materialized1523 ∧
      materialized1523.CBlock = (stagedImage [1, 5, 2, 3] (List.range 30)).CBlock :=
  ⟨rfl, (CBlock_unchanged id rtAccept (stagedImage [1, 5, 2, 3] (List.range 30))
    materialized1523).2.1 rfl⟩

end paddle_mobile.framework
